import Mathlib

/-!
# Mikrotik script builder (src/Mikrotik.cpp)

A shallow embedding of `Mikrotik.cpp`: the per-channel conversion of a MIDI
track's events into `:beep` / `:delay` lines.

Modelling conventions.

* `double` values (milliseconds, frequencies, the tick scale) are exact
  rationals `ℚ`; rounding of IEEE arithmetic is not modelled. The theorems on
  accumulated times are stated on the code's own sequence of additions and
  comparisons, so that they read the same for double addition.
* The text buffers (`std::stringstream`) are lists of `Line` values, one per
  streamed group of the source; `Line.render` gives the text of a line.
* The member fields `m_processedTime`, `m_nextTimestampMarker` and
  `m_timestampMarkerStep` are fields of the `Mikrotik` record, which every
  non-const member function takes and returns.
* Logging (`BOOST_LOG_TRIVIAL`, `note.log()`) has no effect on the buffers or
  the fields and is left out.
* Whether `std::ofstream::open` succeeds is given by `canOpen`, a function of
  the file name.
* `Note::getFrequencyHz` is defined outside `Mikrotik.cpp`: the builder takes it
  from `Env`; `specFrequencyHz` is the formula that the spec gives for it.
-/

namespace MidiToMikrotik

/-! ## Collaborators declared outside `Mikrotik.cpp` -/

/-- Main command code of a note-off event (MIDI status nibble `0x8`). -/
def NOTE_OFF : Nat := 8

/-- Main command code of a note-on event (MIDI status nibble `0x9`). -/
def NOTE_ON : Nat := 9

/-- Command of an event: main command code and sub-command (the channel). -/
structure MidiCmd where
  mainCmd : Nat
  subCmd : Nat
  deriving DecidableEq, Repr

/-- Event of a track: command, delay in ticks (the value of its `VLV`) and the
pitch byte read by `Note`. -/
structure Event where
  cmd : MidiCmd
  delay : Nat
  pitch : Nat
  deriving DecidableEq, Repr

/-- Type of a `Note`. -/
inductive NoteType where
  | NOTE_TYPE_ON
  | NOTE_TYPE_OFF
  deriving DecidableEq, Repr

/-- Note view of an event. -/
structure Note where
  type : NoteType
  pitch : Nat
  delay : Nat
  deriving DecidableEq, Repr

/-- Modelled from the spec: the constructor `Note(event)`, which is declared
outside `Mikrotik.cpp`. The note derived from an event has type NoteOn or
NoteOff after the event's main command, and the event's pitch and delay. -/
def Note.ofEvent (event : Event) : Note :=
  { type := if event.cmd.mainCmd = NOTE_ON then NoteType.NOTE_TYPE_ON
            else NoteType.NOTE_TYPE_OFF
    pitch := event.pitch
    delay := event.delay }

/-- Read-only track data. The type of the BPM value is declared outside
`Mikrotik.cpp`; it is only streamed into the header and is a natural number
here. -/
structure MidiTrack where
  events : List Event
  preDelayMs : ℚ
  pulsesPerSecond : ℚ
  name : String
  bpm : Nat
  instrumentName : String

/-- Functions of the collaborators that `Mikrotik.cpp` calls and that are
defined elsewhere: `Note::getFrequencyHz`, `Note::getSymbolicNote`, the text
form that `operator<<` gives a `double`, and the outcome of opening a file. -/
structure Env where
  getFrequencyHz : Note → Int → Int → ℚ → ℚ
  getSymbolicNote : Note → Int → Int → ℚ → String
  showDouble : ℚ → String
  canOpen : String → Bool

/-! ## Output lines -/

/-- One streamed group of the output buffer. -/
inductive Line where
  /-- the block written by `getScriptHeader` -/
  | header (bpm : Nat) (channel : Nat) (notesCount : String)
      (trackLength : String) (name : String) (instrument : String)
  /-- `":delay " << delayMs << "ms;\n"` -/
  | delay (ms : ℚ)
  /-- `":beep frequency=" << freq << " length=" << duration << "ms;"`,
  the optional `" # " << symbolicNote`, and `"\n"` -/
  | beep (freq : ℚ) (length : ℚ) (comment : Option String)
  /-- the bare `"\n"` that `buildNote` streams after a delay line -/
  | blank
  /-- `"# Time marker: " << getTimeAsText(m_processedTime) << "\n"` -/
  | marker (time : ℚ)
  deriving DecidableEq, Repr

/-! ## The builder -/

/-- The builder object: configuration and the three mutable fields. -/
structure Mikrotik where
  track : MidiTrack
  index : Nat
  octaveShift : Int
  noteShift : Int
  fineTuning : ℚ
  commentsFlag : Bool
  processedTime : ℚ
  timestampMarkerStep : ℚ
  nextTimestampMarker : ℚ

/-- `durationToMs(vlv, pulsesPerSecond)`. -/
def durationToMs (vlv : Nat) (pulsesPerSecond : ℚ) : ℚ :=
  (vlv : ℚ) * pulsesPerSecond

/-- `Mikrotik::setTimeCommentsAfterEachMs`. -/
def setTimeCommentsAfterEachMs (m : Mikrotik) (stepMs : ℚ) : Mikrotik :=
  { m with timestampMarkerStep := stepMs, nextTimestampMarker := stepMs }

/-- `static_cast<int>(time)`: truncation toward zero. The cast is defined in
C++ only when the truncated value fits an `int`; no wrap is modelled. -/
def castInt (time : ℚ) : Int :=
  Int.tdiv time.num (time.den : Int)

/-- `out << std::setfill('0') << std::setw(w) << i`: the decimal text of `i`,
padded on the left with `'0'` up to width `w`. -/
def setw0 (w : Nat) (i : Int) : String :=
  let s := toString i
  String.mk (List.replicate (w - s.length) '0') ++ s

/-- `Mikrotik::getTimeAsText`. -/
def getTimeAsText (time : ℚ) : String :=
  setw0 2 (Int.tmod (Int.tdiv (castInt time) (1000 * 60 * 60)) 24) ++ ":" ++
  setw0 2 (Int.tmod (Int.tdiv (castInt time) (1000 * 60)) 60) ++ ":" ++
  setw0 2 (Int.tmod (Int.tdiv (castInt time) 1000) 60) ++ ":" ++
  setw0 3 (Int.tmod (castInt time) 1000)

/-- Loop body of `Mikrotik::getTrackTimeLength`. -/
def trackTimeStep (pulsesPerSecond : ℚ) (channel : Nat) (totalTime : ℚ)
    (event : Event) : ℚ :=
  if event.cmd.mainCmd = NOTE_ON ∨ event.cmd.mainCmd = NOTE_OFF then
    if event.cmd.subCmd = channel then
      totalTime + durationToMs event.delay pulsesPerSecond
    else totalTime
  else totalTime + durationToMs event.delay pulsesPerSecond

/-- The value `totalTime` at the end of `Mikrotik::getTrackTimeLength`. -/
def trackTotalTime (m : Mikrotik) (channel : Nat) : ℚ :=
  m.track.events.foldl (trackTimeStep m.track.pulsesPerSecond channel)
    m.track.preDelayMs

/-- `Mikrotik::getTrackTimeLength`. -/
def getTrackTimeLength (m : Mikrotik) (channel : Nat) : String :=
  getTimeAsText (trackTotalTime m channel) ++ " HH:MM:SS:MS"

/-- The counter of `Mikrotik::getNotesCount`. -/
def notesCount (m : Mikrotik) (channel : Nat) : Nat :=
  m.track.events.foldl
    (fun count event =>
      if event.cmd.mainCmd = NOTE_ON ∧ event.cmd.subCmd = channel then count + 1
      else count) 0

/-- `Mikrotik::getNotesCount`. -/
def getNotesCount (m : Mikrotik) (channel : Nat) : String :=
  toString (notesCount m channel)

/-- `Mikrotik::getScriptHeader`. -/
def getScriptHeader (m : Mikrotik) (channel : Nat) : List Line :=
  [Line.header m.track.bpm channel (getNotesCount m channel)
    (getTrackTimeLength m channel) m.track.name m.track.instrumentName]

/-- `Mikrotik::getDelayLine`. The source adds doubles (`m_processedTime +=
delayMs`); here the sum is the exact rational sum, so rounding is not
modelled. Statements about accumulated times are therefore made on the values
that the accumulator takes, each got from the one before by one addition, not
on exact sums of durations. -/
def getDelayLine (m : Mikrotik) (delayMs : ℚ) : List Line × Mikrotik :=
  (if delayMs ≠ 0 then [Line.delay delayMs] else [],
   { m with processedTime := m.processedTime + delayMs })

/-- `Mikrotik::getBeepLine`. The test `freq == 0.0` only logs. -/
def getBeepLine (env : Env) (m : Mikrotik) (note : Note) : List Line :=
  let freq := env.getFrequencyHz note m.octaveShift m.noteShift m.fineTuning
  let duration := durationToMs note.delay m.track.pulsesPerSecond
  if duration = 0 then []
  else
    [Line.beep freq duration
      (if m.commentsFlag then
        some (env.getSymbolicNote note m.octaveShift m.noteShift m.fineTuning)
       else none)]

/-- `Mikrotik::buildNote`. -/
def buildNote (env : Env) (m : Mikrotik) (note : Note) : List Line × Mikrotik :=
  let out := if note.type = NoteType.NOTE_TYPE_ON then getBeepLine env m note else []
  let delay := durationToMs note.delay m.track.pulsesPerSecond
  if delay ≠ 0 then
    let r := getDelayLine m (durationToMs note.delay m.track.pulsesPerSecond)
    (out ++ r.1 ++ [Line.blank], r.2)
  else (out, m)

/-- `Mikrotik::getCurrentTimeMarker`. -/
def getCurrentTimeMarker (m : Mikrotik) : List Line :=
  [Line.marker m.processedTime]

/-- State of the event loop of `buildScriptForChannel`: the output buffer,
`foundNoteEventsCount` and the builder. -/
structure LoopState where
  outputBuffer : List Line
  foundNoteEventsCount : Nat
  builder : Mikrotik

/-- The `if(m_timestampMarkerStep != 0.0)` block that ends the loop body. -/
def markerStep (s : LoopState) : LoopState :=
  if s.builder.timestampMarkerStep ≠ 0 then
    if s.builder.processedTime ≥ s.builder.nextTimestampMarker then
      { s with
        outputBuffer := s.outputBuffer ++ getCurrentTimeMarker s.builder
        builder := { s.builder with
          nextTimestampMarker :=
            s.builder.processedTime + s.builder.timestampMarkerStep } }
    else s
  else s

/-- Body of the event loop of `Mikrotik::buildScriptForChannel`. -/
def eventStep (env : Env) (channel : Nat) (s : LoopState) (event : Event) :
    LoopState :=
  let cmd := event.cmd.mainCmd
  let s1 : LoopState :=
    if (cmd = NOTE_ON ∨ cmd = NOTE_OFF) ∧ event.cmd.subCmd = channel then
      let r := buildNote env s.builder (Note.ofEvent event)
      { outputBuffer := s.outputBuffer ++ r.1
        foundNoteEventsCount := s.foundNoteEventsCount + 1
        builder := r.2 }
    else
      let r := getDelayLine s.builder
        (durationToMs event.delay s.builder.track.pulsesPerSecond)
      { s with outputBuffer := s.outputBuffer ++ r.1, builder := r.2 }
  markerStep s1

/-- The state in which the event loop of `buildScriptForChannel` starts: the
header and the pre-delay line are in the buffer. -/
def loopInit (m : Mikrotik) (channel : Nat) : LoopState :=
  let r := getDelayLine m m.track.preDelayMs
  { outputBuffer := getScriptHeader m channel ++ r.1
    foundNoteEventsCount := 0
    builder := r.2 }

/-- The state in which the event loop of `buildScriptForChannel` ends. -/
def runChannel (env : Env) (m : Mikrotik) (channel : Nat) : LoopState :=
  m.track.events.foldl (eventStep env channel) (loopInit m channel)

/-- The name `outFileName` built at the start of `buildScriptForChannel`. -/
def outFileName (m : Mikrotik) (fileName : String) (channel : Nat) : String :=
  fileName ++ "_" ++ m.track.name ++ "_" ++ toString m.index ++ "_" ++
    toString channel ++ ".txt"

/-- What a call of `buildScriptForChannel` did: its return value, the file name
it passed to `open` (if it got that far), the file it wrote (name and
contents, if the file opened) and the builder afterwards. -/
structure ChannelResult where
  ret : Int
  opened : Option String
  written : Option (String × List Line)
  builder : Mikrotik

/-- `Mikrotik::buildScriptForChannel`. -/
def buildScriptForChannel (env : Env) (m : Mikrotik) (fileName : String)
    (channel : Nat) : ChannelResult :=
  let s := runChannel env m channel
  if s.foundNoteEventsCount = 0 then
    { ret := 0, opened := none, written := none, builder := s.builder }
  else if ¬ env.canOpen (outFileName m fileName channel) then
    { ret := -1, opened := some (outFileName m fileName channel)
      written := none, builder := s.builder }
  else
    { ret := 0, opened := some (outFileName m fileName channel)
      written := some (outFileName m fileName channel, s.outputBuffer)
      builder := s.builder }

/-- What a call of `buildScript` did: its return value, the results of the
calls of `buildScriptForChannel` in the order made, and the builder
afterwards. -/
structure ScriptResult where
  ret : Int
  calls : List (Nat × ChannelResult)
  builder : Mikrotik

/-- Body of the channel loop of `Mikrotik::buildScript`. -/
def channelStep (env : Env) (fileName : String) (acc : ScriptResult)
    (channel : Nat) : ScriptResult :=
  let r := buildScriptForChannel env acc.builder fileName channel
  { ret := r.ret, calls := acc.calls ++ [(channel, r)], builder := r.builder }

/-- `Mikrotik::buildScript`. -/
def buildScript (env : Env) (m : Mikrotik) (fileName : String) : ScriptResult :=
  if m.track.events.length = 0 then { ret := 0, calls := [], builder := m }
  else
    (List.range 16).foldl (channelStep env fileName)
      { ret := 0, calls := [], builder := m }

/-! ## Text of the buffers -/

/-- Text of one buffer entry, as the source streams it. -/
def Line.render (showDouble : ℚ → String) : Line → String
  | Line.header bpm channel notesCount trackLength name instrument =>
      "#----------------File Description-----------------#\n" ++
      "# This file generated by Midi To Mikrotik Converter\n" ++
      "# Visit app repo: https://github.com/altucor/midi_to_mikrotik_converter\n" ++
      "# Track BPM: " ++ toString bpm ++ "\n" ++
      "# MIDI Channel: " ++ toString channel ++ "\n" ++
      "# Number of notes: " ++ notesCount ++ "\n" ++
      "# Track length: " ++ trackLength ++ "\n" ++
      "# Track name: " ++ name ++ "\n" ++
      "# Instrument name: " ++ instrument ++ "\n" ++
      "#-------------------------------------------------#\n\n"
  | Line.delay ms => ":delay " ++ showDouble ms ++ "ms;\n"
  | Line.beep freq length comment =>
      ":beep frequency=" ++ showDouble freq ++ " length=" ++ showDouble length ++ "ms;" ++
      (match comment with
        | some symbolicNote => " # " ++ symbolicNote
        | none => "") ++ "\n"
  | Line.blank => "\n"
  | Line.marker time => "# Time marker: " ++ getTimeAsText time ++ "\n"

/-- Text of a buffer (`std::stringstream::str`). -/
def renderBuffer (showDouble : ℚ → String) (buffer : List Line) : String :=
  String.join (buffer.map (Line.render showDouble))

/-! ## Vocabulary of the statements -/

/-- The test of the event loop of `buildScriptForChannel`: a NoteOn or NoteOff
event whose sub-command is the channel. -/
def isChannelNote (channel : Nat) (event : Event) : Prop :=
  (event.cmd.mainCmd = NOTE_ON ∨ event.cmd.mainCmd = NOTE_OFF) ∧
    event.cmd.subCmd = channel

instance (channel : Nat) (event : Event) : Decidable (isChannelNote channel event) := by
  unfold isChannelNote; infer_instance

/-- The builder `m` with its two accumulators replaced. -/
def Mikrotik.withAcc (m : Mikrotik) (processedTime nextTimestampMarker : ℚ) : Mikrotik :=
  { m with processedTime := processedTime, nextTimestampMarker := nextTimestampMarker }

/-- Sum of the durations in milliseconds of a list of events. -/
def eventsMs (pulsesPerSecond : ℚ) (events : List Event) : ℚ :=
  (events.map (fun e => durationToMs e.delay pulsesPerSecond)).sum

/-- Whether a buffer entry is a beep line. -/
def Line.isBeep : Line → Bool
  | Line.beep _ _ _ => true
  | _ => false

/-- Number of beep lines of a buffer. -/
def beepCount (buffer : List Line) : Nat :=
  (buffer.filter Line.isBeep).length

/-- The values of the delay lines of a buffer, in order. -/
def delayValues (buffer : List Line) : List ℚ :=
  buffer.filterMap (fun l => match l with
    | Line.delay ms => some ms
    | _ => none)

/-- The times shown by the time markers of a buffer, in order. -/
def markerTimes (buffer : List Line) : List ℚ :=
  buffer.filterMap (fun l => match l with
    | Line.marker time => some time
    | _ => none)

/-- A NoteOn event of the channel. -/
def isChannelNoteOn (channel : Nat) (event : Event) : Prop :=
  event.cmd.mainCmd = NOTE_ON ∧ event.cmd.subCmd = channel

instance (channel : Nat) (event : Event) : Decidable (isChannelNoteOn channel event) := by
  unfold isChannelNoteOn; infer_instance

/-- Number of NoteOn events of the channel whose frequency is non-zero and
whose delay converts to a non-zero duration. -/
def voicedNoteOnCount (env : Env) (m : Mikrotik) (channel : Nat) : Nat :=
  (m.track.events.filter (fun e => decide (isChannelNoteOn channel e ∧
    env.getFrequencyHz (Note.ofEvent e) m.octaveShift m.noteShift m.fineTuning ≠ 0 ∧
    durationToMs e.delay m.track.pulsesPerSecond ≠ 0))).length

/-- Number of NoteOn events of the channel whose delay converts to a non-zero
duration. -/
def timedNoteOnCount (m : Mikrotik) (channel : Nat) : Nat :=
  (m.track.events.filter (fun e => decide (isChannelNoteOn channel e ∧
    durationToMs e.delay m.track.pulsesPerSecond ≠ 0))).length

/-- The text `HH:MM:SS:mmm` of a whole number `n` of milliseconds: hours modulo
24, minutes, seconds and milliseconds, written digit by digit. -/
def clockText (n : Nat) : String :=
  String.mk
    [Nat.digitChar (n / 3600000 % 24 / 10), Nat.digitChar (n / 3600000 % 24 % 10), ':',
     Nat.digitChar (n / 60000 % 60 / 10), Nat.digitChar (n / 60000 % 60 % 10), ':',
     Nat.digitChar (n / 1000 % 60 / 10), Nat.digitChar (n / 1000 % 60 % 10), ':',
     Nat.digitChar (n % 1000 / 100), Nat.digitChar (n % 1000 / 10 % 10),
     Nat.digitChar (n % 1000 % 10)]

/-- The status of a channel: -1 when the track has a note event of the channel
and the channel's file does not open, 0 otherwise. -/
def channelStatus (env : Env) (m : Mikrotik) (fileName : String) (channel : Nat) : Int :=
  if (∃ e ∈ m.track.events, isChannelNote channel e) ∧
      env.canOpen (outFileName m fileName channel) = false then -1 else 0

/-- The state of the channel loop of `buildScript` after the channels below
`channel`. -/
def scriptStateAt (env : Env) (m : Mikrotik) (fileName : String) (channel : Nat) :
    ScriptResult :=
  (List.range channel).foldl (channelStep env fileName)
    { ret := 0, calls := [], builder := m }

/-- The builder on which the channel loop of `buildScript` calls
`buildScriptForChannel` for `channel`. -/
def builderAt (env : Env) (m : Mikrotik) (fileName : String) (channel : Nat) : Mikrotik :=
  (scriptStateAt env m fileName channel).builder

/-- The markers `ms` are spaced by `step`: the `k`-th of them (counting from 1)
shows a time of at least `k * step`, and the next threshold `next` is at least
`(ms.length + 1) * step`. -/
def MarkersSpaced (step : ℚ) (ms : List ℚ) (next : ℚ) : Prop :=
  (∀ (k : Nat) (t : ℚ), ms[k]? = some t → ((k : ℚ) + 1) * step ≤ t) ∧
    ((ms.length : ℚ) + 1) * step ≤ next

/-! ## Concrete tracks and builders -/

/-- An event with the given main command, channel, delay and pitch. -/
def mkEvent (mainCmd channel delay pitch : Nat) : Event :=
  { cmd := { mainCmd := mainCmd, subCmd := channel }, delay := delay, pitch := pitch }

/-- A track with one millisecond per tick and no pre-delay. -/
def mkTrack (events : List Event) : MidiTrack :=
  { events := events, preDelayMs := 0, pulsesPerSecond := 1, name := "song",
    bpm := 120, instrumentName := "piano" }

/-- A newly constructed builder for a track: no shifts, no comments, markers
disabled, accumulators at zero. -/
def mkBuilder (track : MidiTrack) : Mikrotik :=
  { track := track, index := 0, octaveShift := 0, noteShift := 0, fineTuning := 0,
    commentsFlag := false, processedTime := 0, timestampMarkerStep := 0,
    nextTimestampMarker := 0 }

/-- An environment in which pitch 69 sounds at 440 Hz, every other pitch is
unvoiced (0 Hz), and every file opens when `opens` is true and none does
otherwise. -/
def mkEnv (opens : Bool) : Env :=
  { getFrequencyHz := fun note _ _ _ => if note.pitch = 69 then 440 else 0
    getSymbolicNote := fun _ _ _ _ => "A4"
    showDouble := fun q => toString q
    canOpen := fun _ => opens }

/-- The track of the end-to-end scenario: a NoteOn of pitch 69 with delay 0 and
a NoteOff of pitch 69 with delay 500, both on channel 0. -/
def scenarioTrack : MidiTrack :=
  mkTrack [mkEvent NOTE_ON 0 0 69, mkEvent NOTE_OFF 0 500 69]

/-- A track with a single event: a NoteOn of pitch 69 and delay 500 on
channel 0. -/
def oneNoteTrack : MidiTrack :=
  mkTrack [mkEvent NOTE_ON 0 500 69]

/-- A track with a single event: a NoteOn of the unvoiced pitch 0 and delay 500
on channel 0. -/
def unvoicedTrack : MidiTrack :=
  mkTrack [mkEvent NOTE_ON 0 500 0]

/-- A track with a NoteOn of delay 600 on channel 0 followed by a NoteOn of
delay 600 on channel 1. -/
def twoChannelTrack : MidiTrack :=
  mkTrack [mkEvent NOTE_ON 0 600 69, mkEvent NOTE_ON 1 600 69]

/-- A track on channel 0 whose cumulative time is 1500, 2000 and 3000 ms after
its three events. -/
def crossingTrack : MidiTrack :=
  mkTrack [mkEvent NOTE_ON 0 1500 69, mkEvent NOTE_OFF 0 500 69, mkEvent NOTE_ON 0 1000 69]

/-- Whether a buffer entry is a time marker. -/
def Line.isMarker : Line → Bool
  | Line.marker _ => true
  | _ => false

/-- The lines that the loop body emits for an event before its marker block:
those of `buildNote` for a note event of the channel, the delay line of the
event otherwise. -/
def eventLines (env : Env) (m : Mikrotik) (channel : Nat) (event : Event) : List Line :=
  if isChannelNote channel event then (buildNote env m (Note.ofEvent event)).1
  else (getDelayLine m (durationToMs event.delay m.track.pulsesPerSecond)).1

/-- The groups of lines that make up the body of a buffer: a delay line alone,
a beep line with the delay line of the same value and an empty line, a delay
line with an empty line, or a time marker. -/
def IsChunk (chunk : List Line) : Prop :=
  (∃ d, d ≠ 0 ∧ chunk = [Line.delay d]) ∨
  (∃ f d c, d ≠ 0 ∧ chunk = [Line.beep f d c, Line.delay d, Line.blank]) ∨
  (∃ d, d ≠ 0 ∧ chunk = [Line.delay d, Line.blank]) ∨
  (∃ t, chunk = [Line.marker t])

/-- The body of a buffer: a sequence of groups of lines, each one a chunk. -/
def IsBody (body : List Line) : Prop :=
  ∃ chunks : List (List Line), body = chunks.flatten ∧ ∀ chunk ∈ chunks, IsChunk chunk

/-- The markers `ms` emitted so far are at least `step` apart, and the next
threshold `next` is at least `step` after the last of them. -/
def MarkersApart (step : ℚ) (ms : List ℚ) (next : ℚ) : Prop :=
  List.Chain' (fun a b => a + step ≤ b) ms ∧ ∀ t ∈ ms.getLast?, t + step ≤ next

/-- The times of all the markers emitted by the runs that `buildScript` makes
for the channels below `n`, in the order emitted. -/
def markersUpTo (env : Env) (m : Mikrotik) (fileName : String) (n : Nat) : List ℚ :=
  (List.range n).flatMap (fun c =>
    markerTimes (runChannel env (builderAt env m fileName c) c).outputBuffer)

/-- Modelled from the spec: the exponent of 2 in the frequency formula of
`Note::getFrequencyHz`, which is defined outside `Mikrotik.cpp`:
`(pitch - 69 + 12 * octaveShift + noteShift) / 12 + fineTuningCents / 1200`. -/
def frequencyExponent (pitch : Nat) (octaveShift noteShift : Int) (fineTuning : ℚ) : ℚ :=
  ((pitch : ℚ) - 69 + 12 * (octaveShift : ℚ) + (noteShift : ℚ)) / 12 + fineTuning / 1200

/-- Modelled from the spec: `Note::getFrequencyHz`, which is defined outside
`Mikrotik.cpp`. For a voiced note the equal-temperament formula
`f = A4 * 2^((pitch - 69 + 12 * octaveShift + noteShift) / 12 + fineTuningCents / 1200)`
with `A4 = 440` Hz, as a real number; for an unvoiced or invalid note 0.0 Hz.
The spec does not say which notes are unvoiced: that is the argument
`voiced`. -/
noncomputable def specFrequencyHz (voiced : Bool) (pitch : Nat)
    (octaveShift noteShift : Int) (fineTuning : ℚ) : ℝ :=
  if voiced then
    440 * (2 : ℝ) ^ ((frequencyExponent pitch octaveShift noteShift fineTuning : ℚ) : ℝ)
  else 0

/-- The frequency function of the environment returns, for this note at the
builder's octave shift, note shift and fine tuning, the value that the spec
gives for `Note::getFrequencyHz`. -/
def FollowsSpec (env : Env) (voiced : Bool) (note : Note) (m : Mikrotik) : Prop :=
  ((env.getFrequencyHz note m.octaveShift m.noteShift m.fineTuning : ℚ) : ℝ) =
    specFrequencyHz voiced note.pitch m.octaveShift m.noteShift m.fineTuning

/-- The durations in milliseconds of the events of a track, in order. -/
def eventDurations (track : MidiTrack) : List ℚ :=
  track.events.map (fun e => durationToMs e.delay track.pulsesPerSecond)

/-- The values that `processedTime` takes after each event, when the durations
are added to it one after the other, starting from `start`. -/
def cumulativeTimes (start : ℚ) : List ℚ → List ℚ
  | [] => []
  | d :: ds => (start + d) :: cumulativeTimes (start + d) ds

/-- The rule of the marker block, run along the values `ts` that
`processedTime` takes after the events: a value that has reached the threshold
`next` is shown by a marker and the threshold becomes that value plus the
step; any other value leaves the threshold as it is. -/
def markersFor (step next : ℚ) : List ℚ → List ℚ
  | [] => []
  | t :: ts =>
    if step ≠ 0 ∧ next ≤ t then t :: markersFor step (t + step) ts
    else markersFor step next ts

/-- The body of a buffer after the pre-delay line, event by event: the lines of
the event (`eventLines`), then a time marker when `processedTime`, now at
`processedTime + duration`, has reached the threshold `next`. -/
def scriptBody (env : Env) (m : Mikrotik) (channel : Nat) : ℚ → ℚ → List Event → List Line
  | _, _, [] => []
  | processedTime, next, e :: es =>
    eventLines env m channel e ++
      if m.timestampMarkerStep ≠ 0 ∧
          next ≤ processedTime + durationToMs e.delay m.track.pulsesPerSecond then
        Line.marker (processedTime + durationToMs e.delay m.track.pulsesPerSecond) ::
          scriptBody env m channel
            (processedTime + durationToMs e.delay m.track.pulsesPerSecond)
            (processedTime + durationToMs e.delay m.track.pulsesPerSecond +
              m.timestampMarkerStep) es
      else
        scriptBody env m channel
          (processedTime + durationToMs e.delay m.track.pulsesPerSecond) next es

/-! ## The event loop: builder, counter and buffer -/

theorem withAcc_self (m : Mikrotik) :
    m.withAcc m.processedTime m.nextTimestampMarker = m := by
  cases m; rfl

theorem markerStep_builder (s : LoopState) :
    (markerStep s).builder =
      s.builder.withAcc s.builder.processedTime
        (markerStep s).builder.nextTimestampMarker := by
  unfold markerStep
  split_ifs <;> simp [Mikrotik.withAcc]

theorem markerStep_count (s : LoopState) :
    (markerStep s).foundNoteEventsCount = s.foundNoteEventsCount := by
  unfold markerStep
  split_ifs <;> rfl

theorem buildNote_builder (env : Env) (m : Mikrotik) (note : Note) :
    (buildNote env m note).2 =
      m.withAcc (m.processedTime + durationToMs note.delay m.track.pulsesPerSecond)
        m.nextTimestampMarker := by
  unfold buildNote
  by_cases h : durationToMs note.delay m.track.pulsesPerSecond = 0
  · simp [h, Mikrotik.withAcc]
  · simp [h, getDelayLine, Mikrotik.withAcc]

theorem eventStep_builder (env : Env) (channel : Nat) (s : LoopState) (e : Event) :
    (eventStep env channel s e).builder =
      s.builder.withAcc
        (s.builder.processedTime + durationToMs e.delay s.builder.track.pulsesPerSecond)
        (eventStep env channel s e).builder.nextTimestampMarker := by
  unfold eventStep
  simp only []
  rw [markerStep_builder]
  split_ifs
  · simp [buildNote_builder, Mikrotik.withAcc, Note.ofEvent]
  · simp [getDelayLine, Mikrotik.withAcc]

theorem eventStep_count (env : Env) (channel : Nat) (s : LoopState) (e : Event) :
    (eventStep env channel s e).foundNoteEventsCount =
      s.foundNoteEventsCount + if isChannelNote channel e then 1 else 0 := by
  unfold eventStep isChannelNote
  simp only []
  rw [markerStep_count]
  split_ifs <;> simp

theorem foldl_eventStep_builder (env : Env) (channel : Nat) (es : List Event)
    (s : LoopState) :
    (es.foldl (eventStep env channel) s).builder =
      s.builder.withAcc
        (s.builder.processedTime + eventsMs s.builder.track.pulsesPerSecond es)
        (es.foldl (eventStep env channel) s).builder.nextTimestampMarker := by
  induction es generalizing s with
  | nil => simp [eventsMs, withAcc_self]
  | cons e es ih =>
    rw [List.foldl_cons, ih, eventStep_builder]
    simp [Mikrotik.withAcc, eventsMs, add_assoc]

theorem foldl_eventStep_count (env : Env) (channel : Nat) (es : List Event)
    (s : LoopState) :
    (es.foldl (eventStep env channel) s).foundNoteEventsCount =
      s.foundNoteEventsCount +
        (es.filter (fun e => decide (isChannelNote channel e))).length := by
  induction es generalizing s with
  | nil => simp
  | cons e es ih =>
    rw [List.foldl_cons, ih, eventStep_count]
    by_cases h : isChannelNote channel e
    · simp [h, List.filter_cons]; omega
    · simp [h, List.filter_cons]

/-- The builder that a run of the event loop leaves: the configuration is
unchanged and `processedTime` has grown by the pre-delay and the durations of
all events of the track. -/
theorem runChannel_builder (env : Env) (m : Mikrotik) (channel : Nat) :
    (runChannel env m channel).builder =
      m.withAcc
        (m.processedTime +
          (m.track.preDelayMs + eventsMs m.track.pulsesPerSecond m.track.events))
        (runChannel env m channel).builder.nextTimestampMarker := by
  unfold runChannel
  rw [foldl_eventStep_builder]
  simp [loopInit, getDelayLine, Mikrotik.withAcc, add_assoc]

/-- The counter `foundNoteEventsCount` at the end of the event loop. -/
theorem runChannel_count (env : Env) (m : Mikrotik) (channel : Nat) :
    (runChannel env m channel).foundNoteEventsCount =
      (m.track.events.filter (fun e => decide (isChannelNote channel e))).length := by
  unfold runChannel
  rw [foldl_eventStep_count]
  simp [loopInit]

theorem runChannel_count_eq_zero (env : Env) (m : Mikrotik) (channel : Nat) :
    (runChannel env m channel).foundNoteEventsCount = 0 ↔
      ¬ ∃ e ∈ m.track.events, isChannelNote channel e := by
  rw [runChannel_count]
  simp [List.filter_eq_nil_iff]

/-! ## C3: a file is opened exactly for the channels that have note events -/

/-- C3. `buildScriptForChannel` passes a file name to `open` if and only if the
track has at least one NoteOn or NoteOff event whose channel is `channel`; when
it has none, the call returns 0, opens no file and writes none. -/
theorem buildScriptForChannel_opens_iff (env : Env) (m : Mikrotik)
    (fileName : String) (channel : Nat) :
    ((buildScriptForChannel env m fileName channel).opened.isSome = true ↔
        ∃ e ∈ m.track.events, isChannelNote channel e) ∧
    ((¬ ∃ e ∈ m.track.events, isChannelNote channel e) →
        (buildScriptForChannel env m fileName channel).ret = 0 ∧
        (buildScriptForChannel env m fileName channel).opened = none ∧
        (buildScriptForChannel env m fileName channel).written = none) := by
  have hc := runChannel_count_eq_zero env m channel
  unfold buildScriptForChannel
  by_cases h : ∃ e ∈ m.track.events, isChannelNote channel e
  · have h0 : ¬ (runChannel env m channel).foundNoteEventsCount = 0 := by
      rw [hc]; exact not_not.mpr h
    simp only [h0, if_false]
    constructor
    · split_ifs <;> simp [h]
    · intro hn; exact absurd h hn
  · have h0 : (runChannel env m channel).foundNoteEventsCount = 0 := hc.mpr h
    simp [h0, h]

/-! ## The delay lines and the accumulator of a run -/

theorem delayValues_append (a b : List Line) :
    delayValues (a ++ b) = delayValues a ++ delayValues b := by
  simp [delayValues, List.filterMap_append]

theorem getDelayLine_delaySum (m : Mikrotik) (d : ℚ) :
    (delayValues (getDelayLine m d).1).sum = d := by
  unfold getDelayLine
  by_cases h : d = 0
  · simp [h, delayValues]
  · simp [h, delayValues]

theorem getBeepLine_delayValues (env : Env) (m : Mikrotik) (note : Note) :
    delayValues (getBeepLine env m note) = [] := by
  unfold getBeepLine
  simp only []
  split_ifs <;> simp [delayValues]

theorem buildNote_delaySum (env : Env) (m : Mikrotik) (note : Note) :
    (delayValues (buildNote env m note).1).sum =
      durationToMs note.delay m.track.pulsesPerSecond := by
  unfold buildNote
  by_cases h : durationToMs note.delay m.track.pulsesPerSecond = 0
  · by_cases ht : note.type = NoteType.NOTE_TYPE_ON
    · simp [h, ht, getBeepLine_delayValues]
    · simp [h, ht, delayValues]
  · by_cases ht : note.type = NoteType.NOTE_TYPE_ON
    · simp [h, ht, delayValues_append, getBeepLine_delayValues, getDelayLine_delaySum]
      simp [delayValues]
    · simp [h, ht, delayValues_append, getDelayLine_delaySum]
      simp [delayValues]

theorem markerStep_delayValues (s : LoopState) :
    delayValues (markerStep s).outputBuffer = delayValues s.outputBuffer := by
  unfold markerStep
  split_ifs <;> simp [delayValues_append, getCurrentTimeMarker, delayValues]

theorem eventStep_delaySum (env : Env) (channel : Nat) (s : LoopState) (e : Event) :
    (delayValues (eventStep env channel s e).outputBuffer).sum =
      (delayValues s.outputBuffer).sum +
        durationToMs e.delay s.builder.track.pulsesPerSecond := by
  unfold eventStep
  simp only []
  rw [markerStep_delayValues]
  split_ifs
  · simp [delayValues_append, buildNote_delaySum, Note.ofEvent]
  · simp [delayValues_append, getDelayLine_delaySum]

theorem eventStep_track (env : Env) (channel : Nat) (s : LoopState) (e : Event) :
    (eventStep env channel s e).builder.track = s.builder.track := by
  rw [eventStep_builder]; rfl

theorem foldl_eventStep_delaySum (env : Env) (channel : Nat) (es : List Event)
    (s : LoopState) :
    (delayValues (es.foldl (eventStep env channel) s).outputBuffer).sum =
      (delayValues s.outputBuffer).sum + eventsMs s.builder.track.pulsesPerSecond es := by
  induction es generalizing s with
  | nil => simp [eventsMs]
  | cons e es ih =>
    rw [List.foldl_cons, ih, eventStep_delaySum, eventStep_track]
    simp [eventsMs, add_assoc]

/-- The delay lines of the buffer of a channel add up to the pre-delay plus the
durations of all events of the track. -/
theorem runChannel_delaySum (env : Env) (m : Mikrotik) (channel : Nat) :
    (delayValues (runChannel env m channel).outputBuffer).sum =
      m.track.preDelayMs + eventsMs m.track.pulsesPerSecond m.track.events := by
  unfold runChannel
  rw [foldl_eventStep_delaySum]
  have hd := getDelayLine_delaySum m m.track.preDelayMs
  have hh : delayValues (getScriptHeader m channel) = [] := by
    simp [delayValues, getScriptHeader]
  have ht : (getDelayLine m m.track.preDelayMs).2.track = m.track := rfl
  simp only [loopInit, delayValues_append, hh, List.nil_append, hd, ht]

/-- The growth of `processedTime` over the run for a channel. -/
theorem runChannel_processedTime (env : Env) (m : Mikrotik) (channel : Nat) :
    (runChannel env m channel).builder.processedTime =
      m.processedTime +
        (m.track.preDelayMs + eventsMs m.track.pulsesPerSecond m.track.events) := by
  rw [runChannel_builder]; rfl

/-! ## The channel loop of `buildScript` -/

theorem buildScriptForChannel_builder (env : Env) (m : Mikrotik) (fileName : String)
    (channel : Nat) :
    (buildScriptForChannel env m fileName channel).builder =
      (runChannel env m channel).builder := by
  unfold buildScriptForChannel
  simp only []
  split_ifs <;> rfl

theorem buildScriptForChannel_ret (env : Env) (m : Mikrotik) (fileName : String)
    (channel : Nat) :
    (buildScriptForChannel env m fileName channel).ret =
      channelStatus env m fileName channel := by
  have hc := runChannel_count_eq_zero env m channel
  unfold buildScriptForChannel channelStatus
  by_cases h : ∃ e ∈ m.track.events, isChannelNote channel e
  · have h0 : ¬ (runChannel env m channel).foundNoteEventsCount = 0 := by
      rw [hc]; exact not_not.mpr h
    by_cases ho : env.canOpen (outFileName m fileName channel) = true
    · simp [h0, h, ho]
    · simp [h0, h, ho]
  · have h0 : (runChannel env m channel).foundNoteEventsCount = 0 := hc.mpr h
    simp [h0, h]

theorem channelStatus_withAcc (env : Env) (m : Mikrotik) (fileName : String)
    (channel : Nat) (a b : ℚ) :
    channelStatus env (m.withAcc a b) fileName channel =
      channelStatus env m fileName channel := rfl

theorem scriptStateAt_succ (env : Env) (m : Mikrotik) (fileName : String) (n : Nat) :
    scriptStateAt env m fileName (n + 1) =
      channelStep env fileName (scriptStateAt env m fileName n) n := by
  simp [scriptStateAt, List.range_succ, List.foldl_append]

theorem builderAt_zero (env : Env) (m : Mikrotik) (fileName : String) :
    builderAt env m fileName 0 = m := rfl

theorem builderAt_succ (env : Env) (m : Mikrotik) (fileName : String) (n : Nat) :
    builderAt env m fileName (n + 1) =
      (runChannel env (builderAt env m fileName n) n).builder := by
  unfold builderAt
  rw [scriptStateAt_succ]
  simp [channelStep, buildScriptForChannel_builder]

/-- The builder at the start of each channel's run has the configuration of the
original builder; its `processedTime` has grown by the whole track's time once
for every channel already processed. -/
theorem builderAt_eq (env : Env) (m : Mikrotik) (fileName : String) (n : Nat) :
    builderAt env m fileName n =
      m.withAcc
        (m.processedTime +
          n * (m.track.preDelayMs + eventsMs m.track.pulsesPerSecond m.track.events))
        (builderAt env m fileName n).nextTimestampMarker := by
  induction n with
  | zero => simp [builderAt_zero, withAcc_self]
  | succ n ih =>
    rw [builderAt_succ, runChannel_builder, ih]
    simp only [Mikrotik.withAcc, Nat.cast_succ]
    congr 1
    ring

theorem scriptStateAt_calls (env : Env) (m : Mikrotik) (fileName : String) (n : Nat) :
    (scriptStateAt env m fileName n).calls =
      (List.range n).map (fun c =>
        (c, buildScriptForChannel env (builderAt env m fileName c) fileName c)) := by
  induction n with
  | zero => rfl
  | succ n ih =>
    rw [scriptStateAt_succ]
    simp [channelStep, ih, List.range_succ, builderAt]

theorem scriptStateAt_ret (env : Env) (m : Mikrotik) (fileName : String) (n : Nat) :
    (scriptStateAt env m fileName (n + 1)).ret =
      channelStatus env m fileName n := by
  rw [scriptStateAt_succ]
  simp only [channelStep]
  rw [buildScriptForChannel_ret]
  change channelStatus env (builderAt env m fileName n) fileName n = _
  rw [builderAt_eq, channelStatus_withAcc]

theorem buildScript_nonempty (env : Env) (m : Mikrotik) (fileName : String)
    (h : m.track.events ≠ []) :
    buildScript env m fileName = scriptStateAt env m fileName 16 := by
  unfold buildScript scriptStateAt
  simp [h]

theorem buildScript_empty (env : Env) (m : Mikrotik) (fileName : String)
    (h : m.track.events = []) :
    buildScript env m fileName = { ret := 0, calls := [], builder := m } := by
  unfold buildScript
  simp [h]

/-! ## C9: the return value of `buildScript` -/

/-- C9. For a track with no events `buildScript` returns 0 without calling
`buildScriptForChannel` at all, so no file is written. For a track with events
its return value is the one of the last call made, the call for channel 15:
-1 when channel 15 has a note event and its file does not open, 0 otherwise,
whatever the calls for channels 0 to 14 returned. -/
theorem buildScript_ret_is_last_channel_status (env : Env) (m : Mikrotik)
    (fileName : String) :
    (m.track.events = [] →
      (buildScript env m fileName).ret = 0 ∧ (buildScript env m fileName).calls = []) ∧
    (m.track.events ≠ [] →
      (∃ r, (buildScript env m fileName).calls.getLast? = some (15, r) ∧
        (buildScript env m fileName).ret = r.ret) ∧
      (buildScript env m fileName).ret =
        if (∃ e ∈ m.track.events, isChannelNote 15 e) ∧
          env.canOpen (outFileName m fileName 15) = false then -1 else 0) := by
  constructor
  · intro h
    rw [buildScript_empty env m fileName h]
    exact ⟨rfl, rfl⟩
  · intro h
    rw [buildScript_nonempty env m fileName h]
    constructor
    · refine ⟨buildScriptForChannel env (builderAt env m fileName 15) fileName 15, ?_, ?_⟩
      · rw [scriptStateAt_calls]
        simp [List.range_succ]
      · rw [scriptStateAt_succ env m fileName 15]
        simp only [channelStep, builderAt]
    · rw [scriptStateAt_ret env m fileName 15]
      simp only [channelStatus]

/-! ## C8: a failed open and the return value of `buildScript` -/

/-- C8 fails as stated: on a track whose only note event is on channel 0, when
no file can be opened, the call for channel 0 fails with -1 and `buildScript`
still returns 0. -/
theorem buildScript_hides_failure_on_channel_0 :
    oneNoteTrack.events ≠ [] ∧
    (∃ e ∈ (mkBuilder oneNoteTrack).track.events, isChannelNote 0 e) ∧
    (mkEnv false).canOpen (outFileName (mkBuilder oneNoteTrack) "out" 0) = false ∧
    (buildScriptForChannel (mkEnv false) (mkBuilder oneNoteTrack) "out" 0).ret = -1 ∧
    (buildScript (mkEnv false) (mkBuilder oneNoteTrack) "out").ret = 0 := by
  refine ⟨by simp [oneNoteTrack, mkTrack], ?_, rfl, ?_, ?_⟩
  · simp [mkBuilder, oneNoteTrack, mkTrack, mkEvent, isChannelNote]
  · rw [buildScriptForChannel_ret]
    simp [channelStatus, mkBuilder, oneNoteTrack, mkTrack, mkEvent, isChannelNote, mkEnv]
  · rw [buildScript_nonempty _ _ _ (by simp [mkBuilder, oneNoteTrack, mkTrack]),
      scriptStateAt_ret _ _ _ 15]
    simp [channelStatus, mkBuilder, oneNoteTrack, mkTrack, mkEvent, isChannelNote]

/-- C8, amended. For a track with events and every outcome of the open
attempts, `buildScript` calls `buildScriptForChannel` for the channels 0 to 15
in this order, and its return value is non-zero exactly when channel 15 has a
note event and the file of channel 15 does not open. -/
theorem buildScript_status_reflects_channel_15 (env : Env) (m : Mikrotik)
    (fileName : String) (h : m.track.events ≠ []) :
    (buildScript env m fileName).calls.map Prod.fst = List.range 16 ∧
    ((buildScript env m fileName).ret ≠ 0 ↔
      (∃ e ∈ m.track.events, isChannelNote 15 e) ∧
        env.canOpen (outFileName m fileName 15) = false) := by
  rw [buildScript_nonempty env m fileName h]
  constructor
  · rw [scriptStateAt_calls]
    simp [List.map_map, Function.comp_def]
  · rw [scriptStateAt_ret env m fileName 15]
    unfold channelStatus
    split_ifs with hc
    · simp [hc]
    · simp only [ne_eq, not_true_eq_false, false_iff]
      exact hc

/-- C8, amended, at a concrete input: the one-note track when no file opens. -/
theorem buildScript_status_reflects_channel_15_witness :
    (mkBuilder oneNoteTrack).track.events ≠ [] ∧
    (buildScript (mkEnv false) (mkBuilder oneNoteTrack) "out").calls.map Prod.fst =
      List.range 16 :=
  ⟨by simp [mkBuilder, oneNoteTrack, mkTrack],
   (buildScript_status_reflects_channel_15 (mkEnv false) (mkBuilder oneNoteTrack) "out"
      (by simp [mkBuilder, oneNoteTrack, mkTrack])).1⟩

/-! ## C10: a note of zero duration -/

/-- C10. For a note, NoteOn or NoteOff, whose delay converts to a duration of
zero milliseconds, `buildNote` returns no line at all (its text is the empty
string) and leaves the builder, with its `processedTime`, unchanged. -/
theorem buildNote_zero_duration (env : Env) (m : Mikrotik) (note : Note)
    (h : durationToMs note.delay m.track.pulsesPerSecond = 0) :
    (buildNote env m note).1 = [] ∧
    renderBuffer env.showDouble (buildNote env m note).1 = "" ∧
    (buildNote env m note).2 = m ∧
    (buildNote env m note).2.processedTime = m.processedTime := by
  have h1 : (buildNote env m note).1 = [] := by
    unfold buildNote getBeepLine
    simp [h]
  have h2 : (buildNote env m note).2 = m := by
    unfold buildNote
    simp [h]
  refine ⟨h1, ?_, h2, by rw [h2]⟩
  rw [h1]
  rfl

/-- C10 at a concrete input: a NoteOn with delay 0 on the one-note track. -/
theorem buildNote_zero_duration_witness :
    durationToMs 0 (mkBuilder oneNoteTrack).track.pulsesPerSecond = 0 ∧
    (buildNote (mkEnv true) (mkBuilder oneNoteTrack)
      { type := NoteType.NOTE_TYPE_ON, pitch := 69, delay := 0 }).1 = [] :=
  ⟨by simp [durationToMs],
   (buildNote_zero_duration (mkEnv true) (mkBuilder oneNoteTrack)
      { type := NoteType.NOTE_TYPE_ON, pitch := 69, delay := 0 }
      (by simp [durationToMs])).1⟩

/-! ## C7: the text of a time -/

theorem castInt_of_nonneg (t : ℚ) (h : 0 ≤ t) : castInt t = ((⌊t⌋₊ : Nat) : Int) := by
  unfold castInt
  have hnum : 0 ≤ t.num := Rat.num_nonneg.mpr h
  rw [Int.tdiv_eq_ediv hnum (by positivity), ← Rat.floor_def, Int.natCast_floor_eq_floor h]

theorem setw0_two (k : Nat) (h : k < 100) :
    setw0 2 (k : Int) = String.mk [Nat.digitChar (k / 10), Nat.digitChar (k % 10)] := by
  revert k
  decide

set_option maxRecDepth 1000000 in
theorem setw0_three (k : Nat) (h : k < 1000) :
    setw0 3 (k : Int) =
      String.mk [Nat.digitChar (k / 100), Nat.digitChar (k / 10 % 10), Nat.digitChar (k % 10)] := by
  revert k
  decide

theorem castInt_fields (n : Nat) :
    Int.tmod (Int.tdiv (n : Int) (1000 * 60 * 60)) 24 = ((n / 3600000 % 24 : Nat) : Int) ∧
    Int.tmod (Int.tdiv (n : Int) (1000 * 60)) 60 = ((n / 60000 % 60 : Nat) : Int) ∧
    Int.tmod (Int.tdiv (n : Int) 1000) 60 = ((n / 1000 % 60 : Nat) : Int) ∧
    Int.tmod (n : Int) 1000 = ((n % 1000 : Nat) : Int) := by
  have hn : (0 : Int) ≤ (n : Int) := Int.natCast_nonneg n
  refine ⟨?_, ?_, ?_, ?_⟩
  · rw [Int.tdiv_eq_ediv hn (by norm_num), Int.tmod_eq_emod (by positivity) (by norm_num)]
    norm_cast
  · rw [Int.tdiv_eq_ediv hn (by norm_num), Int.tmod_eq_emod (by positivity) (by norm_num)]
    norm_cast
  · rw [Int.tdiv_eq_ediv hn (by norm_num), Int.tmod_eq_emod (by positivity) (by norm_num)]
    norm_cast
  · rw [Int.tmod_eq_emod hn (by norm_num)]
    norm_cast

theorem getTimeAsText_of_nonneg (t : ℚ) (h0 : 0 ≤ t) : getTimeAsText t = clockText ⌊t⌋₊ := by
  obtain ⟨h1, h2, h3, h4⟩ := castInt_fields ⌊t⌋₊
  unfold getTimeAsText
  rw [castInt_of_nonneg t h0, h1, h2, h3, h4,
    setw0_two _ (by omega), setw0_two _ (by omega), setw0_two _ (by omega),
    setw0_three _ (by omega)]
  rfl

/-- C7. For a time `t` with `0 ≤ t < 2^31` and `n` its integer part,
`getTimeAsText t` is the 12-character text `HH:MM:SS:mmm` with
`HH = (n / 3600000) mod 24`, `MM = (n / 60000) mod 60`, `SS = (n / 1000) mod 60`
written with two digits and `mmm = n mod 1000` written with three; 0 gives
`00:00:00:000`, 3661000 gives `01:01:01:000` and 90000000 has the hour
field `01`. -/
theorem getTimeAsText_is_clockText (t : ℚ) (h0 : 0 ≤ t) (hlt : t < 2 ^ 31) :
    getTimeAsText t = clockText ⌊t⌋₊ ∧
    (getTimeAsText t).length = 12 ∧
    getTimeAsText 0 = "00:00:00:000" ∧
    getTimeAsText 3661000 = "01:01:01:000" ∧
    (getTimeAsText 90000000).take 2 = "01" := by
  have _hbound := hlt
  refine ⟨getTimeAsText_of_nonneg t h0, ?_, by decide, by decide, by decide⟩
  rw [getTimeAsText_of_nonneg t h0]
  rfl

/-- C7 at a concrete input: 3661000.5 milliseconds. -/
theorem getTimeAsText_is_clockText_witness :
    (0 : ℚ) ≤ 7322001 / 2 ∧ (7322001 / 2 : ℚ) < 2 ^ 31 ∧
    (getTimeAsText (7322001 / 2)).length = 12 :=
  ⟨by norm_num, by norm_num,
   (getTimeAsText_is_clockText (7322001 / 2) (by norm_num) (by norm_num)).2.1⟩

/-! ## The files opened and written -/

theorem buildScriptForChannel_opened (env : Env) (m : Mikrotik) (fileName : String)
    (channel : Nat) :
    (buildScriptForChannel env m fileName channel).opened =
      if ∃ e ∈ m.track.events, isChannelNote channel e then
        some (outFileName m fileName channel)
      else none := by
  have hc := runChannel_count_eq_zero env m channel
  unfold buildScriptForChannel
  by_cases h : ∃ e ∈ m.track.events, isChannelNote channel e
  · have h0 : ¬ (runChannel env m channel).foundNoteEventsCount = 0 := by
      rw [hc]; exact not_not.mpr h
    simp only [h0, if_false, h, if_true]
    split_ifs <;> rfl
  · have h0 : (runChannel env m channel).foundNoteEventsCount = 0 := hc.mpr h
    simp [h0, h]

theorem buildScriptForChannel_written (env : Env) (m : Mikrotik) (fileName : String)
    (channel : Nat) :
    (buildScriptForChannel env m fileName channel).written =
      if (∃ e ∈ m.track.events, isChannelNote channel e) ∧
          env.canOpen (outFileName m fileName channel) = true then
        some (outFileName m fileName channel, (runChannel env m channel).outputBuffer)
      else none := by
  have hc := runChannel_count_eq_zero env m channel
  unfold buildScriptForChannel
  by_cases h : ∃ e ∈ m.track.events, isChannelNote channel e
  · have h0 : ¬ (runChannel env m channel).foundNoteEventsCount = 0 := by
      rw [hc]; exact not_not.mpr h
    by_cases ho : env.canOpen (outFileName m fileName channel) = true
    · simp [h0, h, ho]
    · simp [h0, h, ho]
  · have h0 : (runChannel env m channel).foundNoteEventsCount = 0 := hc.mpr h
    simp [h0, h]

theorem builderAt_track (env : Env) (m : Mikrotik) (fileName : String) (n : Nat) :
    (builderAt env m fileName n).track = m.track := by
  rw [builderAt_eq]; rfl

theorem outFileName_builderAt (env : Env) (m : Mikrotik) (fileName : String) (n c : Nat) :
    outFileName (builderAt env m fileName n) fileName c = outFileName m fileName c := by
  rw [builderAt_eq]; rfl

/-- The file names that `buildScript` passes to `open`, in order. -/
theorem buildScript_opened (env : Env) (m : Mikrotik) (fileName : String)
    (h : m.track.events ≠ []) :
    (buildScript env m fileName).calls.filterMap (fun c => c.2.opened) =
      (List.range 16).filterMap (fun c =>
        if ∃ e ∈ m.track.events, isChannelNote c e then some (outFileName m fileName c)
        else none) := by
  rw [buildScript_nonempty env m fileName h, scriptStateAt_calls, List.filterMap_map]
  congr 1
  funext c
  simp only [Function.comp, buildScriptForChannel_opened, builderAt_track,
    outFileName_builderAt]

/-- The files that `buildScript` writes, in order. -/
theorem buildScript_written (env : Env) (m : Mikrotik) (fileName : String)
    (h : m.track.events ≠ []) :
    (buildScript env m fileName).calls.filterMap (fun c => c.2.written) =
      (List.range 16).filterMap (fun c =>
        if (∃ e ∈ m.track.events, isChannelNote c e) ∧
            env.canOpen (outFileName m fileName c) = true then
          some (outFileName m fileName c,
            (runChannel env (builderAt env m fileName c) c).outputBuffer)
        else none) := by
  rw [buildScript_nonempty env m fileName h, scriptStateAt_calls, List.filterMap_map]
  congr 1
  funext c
  simp only [Function.comp, buildScriptForChannel_written, builderAt_track,
    outFileName_builderAt]

/-! ## C1: the end-to-end scenario -/

theorem range16 : List.range 16 = [0, 1, 2, 3, 4, 5, 6, 7, 8, 9, 10, 11, 12, 13, 14, 15] := by
  decide

/-- C1 fails as stated: in the scenario the file written for channel 0 holds the
header, one delay line of 500 ms and an empty line, and no beep line. -/
theorem scenario_file_has_no_beep_line :
    (buildScript (mkEnv true) (mkBuilder scenarioTrack) "out").calls.filterMap
        (fun c => c.2.written) =
      [("out_song_0_0.txt",
        getScriptHeader (mkBuilder scenarioTrack) 0 ++ [Line.delay 500, Line.blank])] ∧
    beepCount
      (getScriptHeader (mkBuilder scenarioTrack) 0 ++ [Line.delay 500, Line.blank]) = 0 := by
  constructor
  · rw [buildScript_written _ _ _ (by simp [mkBuilder, scenarioTrack, mkTrack]), range16]
    simp [mkBuilder, scenarioTrack, mkTrack, mkEvent, isChannelNote, mkEnv, NOTE_ON, NOTE_OFF,
      builderAt_zero, runChannel, loopInit, eventStep, markerStep, buildNote, getBeepLine,
      getDelayLine, durationToMs, Note.ofEvent]
    decide
  · simp [beepCount, getScriptHeader, Line.isBeep]

/-- C1, amended. In the scenario (pulses-per-second 1, pre-delay 0, a NoteOn of
pitch 69 with delay 0 then a NoteOff of pitch 69 with delay 500, both on
channel 0), with time markers disabled, `buildScript` opens exactly one file,
the one of channel 0, and none for channels 1 to 15; when that file opens, what
is written is the header, one delay line of 500 ms and an empty line. The
buffer has no beep line: the NoteOn has duration zero and is skipped. -/
theorem scenario_files (env : Env) (m : Mikrotik) (fileName : String)
    (hev : m.track.events = [mkEvent NOTE_ON 0 0 69, mkEvent NOTE_OFF 0 500 69])
    (hpps : m.track.pulsesPerSecond = 1) (hpre : m.track.preDelayMs = 0)
    (hstep : m.timestampMarkerStep = 0) :
    (buildScript env m fileName).calls.filterMap (fun c => c.2.opened) =
      [outFileName m fileName 0] ∧
    (buildScript env m fileName).calls.filterMap (fun c => c.2.written) =
      (if env.canOpen (outFileName m fileName 0) = true then
        [(outFileName m fileName 0,
          getScriptHeader m 0 ++ [Line.delay 500, Line.blank])]
      else []) ∧
    beepCount (getScriptHeader m 0 ++ [Line.delay 500, Line.blank]) = 0 ∧
    delayValues (getScriptHeader m 0 ++ [Line.delay 500, Line.blank]) = [500] := by
  have hne : m.track.events ≠ [] := by simp [hev]
  refine ⟨?_, ?_, ?_, ?_⟩
  · rw [buildScript_opened env m fileName hne, range16, hev]
    simp [mkEvent, isChannelNote, NOTE_ON, NOTE_OFF]
  · have hbuf : (runChannel env m 0).outputBuffer =
        getScriptHeader m 0 ++ [Line.delay 500, Line.blank] := by
      simp [mkEvent, NOTE_ON, NOTE_OFF, runChannel, loopInit, eventStep, markerStep,
        buildNote, getBeepLine, getDelayLine, durationToMs, Note.ofEvent, hev, hpps, hpre,
        hstep]
    rw [buildScript_written env m fileName hne, range16, hev]
    by_cases ho : env.canOpen (outFileName m fileName 0) = true
    · simp [mkEvent, isChannelNote, NOTE_ON, NOTE_OFF, builderAt_zero, hbuf, ho,
        List.filterMap_cons]
    · simp [mkEvent, isChannelNote, NOTE_ON, NOTE_OFF, ho, List.filterMap_cons]
  · simp [beepCount, getScriptHeader, Line.isBeep]
  · simp [delayValues, getScriptHeader]

/-- C1, amended, at a concrete input: a new builder on the scenario track. -/
theorem scenario_files_witness :
    (buildScript (mkEnv true) (mkBuilder scenarioTrack) "out").calls.filterMap
        (fun c => c.2.opened) =
      [outFileName (mkBuilder scenarioTrack) "out" 0] :=
  (scenario_files (mkEnv true) (mkBuilder scenarioTrack) "out" rfl rfl rfl rfl).1

/-! ## C2: the beep lines of a channel -/

theorem beepCount_append (a b : List Line) :
    beepCount (a ++ b) = beepCount a + beepCount b := by
  simp [beepCount, List.filter_append]

theorem getDelayLine_beepCount (m : Mikrotik) (d : ℚ) :
    beepCount (getDelayLine m d).1 = 0 := by
  unfold getDelayLine
  by_cases h : d = 0
  · simp [h, beepCount]
  · simp [h, beepCount, Line.isBeep]

theorem markerStep_beepCount (s : LoopState) :
    beepCount (markerStep s).outputBuffer = beepCount s.outputBuffer := by
  unfold markerStep
  split_ifs <;> simp [beepCount_append, getCurrentTimeMarker, beepCount, Line.isBeep]

theorem buildNote_beepCount (env : Env) (m : Mikrotik) (note : Note) :
    beepCount (buildNote env m note).1 =
      if note.type = NoteType.NOTE_TYPE_ON ∧
          durationToMs note.delay m.track.pulsesPerSecond ≠ 0 then 1 else 0 := by
  have hd := getDelayLine_beepCount m (durationToMs note.delay m.track.pulsesPerSecond)
  have hb : beepCount [Line.blank] = 0 := rfl
  unfold buildNote
  by_cases h : durationToMs note.delay m.track.pulsesPerSecond = 0
  · by_cases ht : note.type = NoteType.NOTE_TYPE_ON
    · simp [h, ht, getBeepLine, beepCount]
    · simp [h, ht, beepCount]
  · by_cases ht : note.type = NoteType.NOTE_TYPE_ON
    · have hg : beepCount (getBeepLine env m note) = 1 := by
        simp [getBeepLine, h, beepCount, Line.isBeep]
      simp only [h, ht, ne_eq, not_false_eq_true, if_true, and_self, beepCount_append, hd, hb,
        hg]
    · simp only [h, ht, ne_eq, not_false_eq_true, if_true, if_false, false_and,
        beepCount_append, hd, hb]
      rfl

theorem eventStep_beepCount (env : Env) (channel : Nat) (s : LoopState) (e : Event) :
    beepCount (eventStep env channel s e).outputBuffer =
      beepCount s.outputBuffer +
        if isChannelNoteOn channel e ∧
            durationToMs e.delay s.builder.track.pulsesPerSecond ≠ 0 then 1 else 0 := by
  unfold eventStep
  simp only []
  rw [markerStep_beepCount]
  by_cases hn : (e.cmd.mainCmd = NOTE_ON ∨ e.cmd.mainCmd = NOTE_OFF) ∧ e.cmd.subCmd = channel
  · simp only [hn, and_self, if_true, beepCount_append, buildNote_beepCount]
    by_cases hon : e.cmd.mainCmd = NOTE_ON
    · simp [Note.ofEvent, hon, isChannelNoteOn, hn.2]
    · simp [Note.ofEvent, hon, isChannelNoteOn]
  · simp only [hn, if_false, beepCount_append, getDelayLine_beepCount]
    have : ¬ isChannelNoteOn channel e := fun h => hn ⟨Or.inl h.1, h.2⟩
    simp [this]

theorem foldl_eventStep_beepCount (env : Env) (channel : Nat) (es : List Event)
    (s : LoopState) :
    beepCount (es.foldl (eventStep env channel) s).outputBuffer =
      beepCount s.outputBuffer +
        (es.filter (fun e => decide (isChannelNoteOn channel e ∧
          durationToMs e.delay s.builder.track.pulsesPerSecond ≠ 0))).length := by
  induction es generalizing s with
  | nil => simp
  | cons e es ih =>
    rw [List.foldl_cons, ih, eventStep_beepCount, eventStep_track]
    by_cases h : isChannelNoteOn channel e ∧
        durationToMs e.delay s.builder.track.pulsesPerSecond ≠ 0
    · rw [List.filter_cons_of_pos (by simpa using h), if_pos h, List.length_cons]
      omega
    · rw [List.filter_cons_of_neg (by simpa using h), if_neg h, Nat.add_zero]

/-- What the code does: the beep lines of a channel's buffer are as many as the
NoteOn events of the channel with a non-zero duration, whatever their
frequency. -/
theorem runChannel_beepCount (env : Env) (m : Mikrotik) (channel : Nat) :
    beepCount (runChannel env m channel).outputBuffer = timedNoteOnCount m channel := by
  unfold runChannel timedNoteOnCount
  rw [foldl_eventStep_beepCount]
  have h0 : beepCount (loopInit m channel).outputBuffer = 0 := by
    simp only [loopInit, beepCount_append, getDelayLine_beepCount]
    simp [beepCount, getScriptHeader, Line.isBeep]
  have ht : (loopInit m channel).builder.track = m.track := rfl
  rw [h0, ht, Nat.zero_add]

/-- C2 at its failing input: a NoteOn whose frequency is 0 Hz and whose delay is
500 ms is written as a beep line of frequency 0, so the buffer has one beep
line while no NoteOn of the channel has a non-zero frequency. -/
theorem zero_frequency_note_gets_beep_line :
    (mkEnv true).getFrequencyHz (Note.ofEvent (mkEvent NOTE_ON 0 500 0)) 0 0 0 = 0 ∧
    (runChannel (mkEnv true) (mkBuilder unvoicedTrack) 0).outputBuffer =
      getScriptHeader (mkBuilder unvoicedTrack) 0 ++
        [Line.beep 0 500 none, Line.delay 500, Line.blank] ∧
    beepCount (runChannel (mkEnv true) (mkBuilder unvoicedTrack) 0).outputBuffer = 1 ∧
    voicedNoteOnCount (mkEnv true) (mkBuilder unvoicedTrack) 0 = 0 := by
  refine ⟨by simp [mkEnv, Note.ofEvent, mkEvent], ?_, ?_, ?_⟩
  · simp [mkBuilder, unvoicedTrack, mkTrack, mkEvent, mkEnv, NOTE_ON, NOTE_OFF,
      runChannel, loopInit, eventStep, markerStep, buildNote, getBeepLine,
      getDelayLine, durationToMs, Note.ofEvent]
  · rw [runChannel_beepCount]
    simp [timedNoteOnCount, mkBuilder, unvoicedTrack, mkTrack, mkEvent, isChannelNoteOn,
      durationToMs]
  · simp [voicedNoteOnCount, mkBuilder, unvoicedTrack, mkTrack, mkEvent, isChannelNoteOn,
      mkEnv, Note.ofEvent]

/-! ## Time markers -/

theorem markerTimes_append (a b : List Line) :
    markerTimes (a ++ b) = markerTimes a ++ markerTimes b := by
  simp [markerTimes, List.filterMap_append]

theorem getDelayLine_markerTimes (m : Mikrotik) (d : ℚ) :
    markerTimes (getDelayLine m d).1 = [] := by
  unfold getDelayLine
  by_cases h : d = 0
  · simp [h, markerTimes]
  · simp [h, markerTimes]

theorem buildNote_markerTimes (env : Env) (m : Mikrotik) (note : Note) :
    markerTimes (buildNote env m note).1 = [] := by
  have hd := getDelayLine_markerTimes m (durationToMs note.delay m.track.pulsesPerSecond)
  have hb : markerTimes [Line.blank] = [] := rfl
  have hg : markerTimes (getBeepLine env m note) = [] := by
    unfold getBeepLine
    simp only []
    split_ifs <;> rfl
  have hn : markerTimes [] = [] := rfl
  unfold buildNote
  simp only []
  split_ifs <;> simp only [markerTimes_append, hd, hb, hg, hn, List.append_nil]

/-- Whether the marker block fires after event `e`, from loop state `s`. -/
theorem eventStep_markers (env : Env) (channel : Nat) (s : LoopState) (e : Event) :
    (markerTimes (eventStep env channel s e).outputBuffer =
      markerTimes s.outputBuffer ++
        if s.builder.timestampMarkerStep ≠ 0 ∧
            s.builder.nextTimestampMarker ≤
              s.builder.processedTime +
                durationToMs e.delay s.builder.track.pulsesPerSecond then
          [s.builder.processedTime + durationToMs e.delay s.builder.track.pulsesPerSecond]
        else []) ∧
    ((eventStep env channel s e).builder.nextTimestampMarker =
        if s.builder.timestampMarkerStep ≠ 0 ∧
            s.builder.nextTimestampMarker ≤
              s.builder.processedTime +
                durationToMs e.delay s.builder.track.pulsesPerSecond then
          s.builder.processedTime + durationToMs e.delay s.builder.track.pulsesPerSecond +
            s.builder.timestampMarkerStep
        else s.builder.nextTimestampMarker) := by
  have hm : markerTimes [Line.marker
      (s.builder.processedTime + durationToMs e.delay s.builder.track.pulsesPerSecond)] =
      [s.builder.processedTime + durationToMs e.delay s.builder.track.pulsesPerSecond] := rfl
  unfold eventStep
  simp only []
  by_cases hn : (e.cmd.mainCmd = NOTE_ON ∨ e.cmd.mainCmd = NOTE_OFF) ∧ e.cmd.subCmd = channel
  · simp only [hn, and_self, if_true]
    unfold markerStep
    simp only [buildNote_builder, Mikrotik.withAcc, Note.ofEvent, getCurrentTimeMarker,
      markerTimes_append, buildNote_markerTimes, List.append_nil, hm, ge_iff_le]
    by_cases h1 : s.builder.timestampMarkerStep = 0
    · simp [h1, markerTimes_append, buildNote_markerTimes]
    · by_cases h2 : s.builder.nextTimestampMarker ≤
          s.builder.processedTime + durationToMs e.delay s.builder.track.pulsesPerSecond
      · simp [h1, h2, markerTimes_append, buildNote_markerTimes, hm]
      · simp [h1, h2, markerTimes_append, buildNote_markerTimes]
  · simp only [hn, if_false]
    unfold markerStep
    simp only [getDelayLine, getCurrentTimeMarker, ge_iff_le]
    have hd : markerTimes
        (if durationToMs e.delay s.builder.track.pulsesPerSecond = 0 then []
         else [Line.delay (durationToMs e.delay s.builder.track.pulsesPerSecond)]) = [] := by
      split_ifs <;> rfl
    by_cases h1 : s.builder.timestampMarkerStep = 0
    · simp [h1, markerTimes_append, hd]
    · by_cases h2 : s.builder.nextTimestampMarker ≤
          s.builder.processedTime + durationToMs e.delay s.builder.track.pulsesPerSecond
      · simp [h1, h2, markerTimes_append, hd, hm]
      · simp [h1, h2, markerTimes_append, hd]

theorem eventStep_step (env : Env) (channel : Nat) (s : LoopState) (e : Event) :
    (eventStep env channel s e).builder.timestampMarkerStep =
      s.builder.timestampMarkerStep := by
  rw [eventStep_builder]; rfl

theorem eventStep_processedTime (env : Env) (channel : Nat) (s : LoopState) (e : Event) :
    (eventStep env channel s e).builder.processedTime =
      s.builder.processedTime + durationToMs e.delay s.builder.track.pulsesPerSecond := by
  rw [eventStep_builder]; rfl

theorem eventStep_spaced (env : Env) (channel : Nat) (s : LoopState) (e : Event)
    (h : MarkersSpaced s.builder.timestampMarkerStep (markerTimes s.outputBuffer)
      s.builder.nextTimestampMarker) :
    MarkersSpaced s.builder.timestampMarkerStep
      (markerTimes (eventStep env channel s e).outputBuffer)
      (eventStep env channel s e).builder.nextTimestampMarker := by
  obtain ⟨hbuf, hnext⟩ := eventStep_markers env channel s e
  rw [hbuf, hnext]
  obtain ⟨hk, hn⟩ := h
  split_ifs with hf
  · constructor
    · intro k t hkt
      rcases Nat.lt_or_ge k (markerTimes s.outputBuffer).length with hlt | hge
      · rw [List.getElem?_append_left hlt] at hkt
        exact hk k t hkt
      · rw [List.getElem?_append_right hge] at hkt
        have hk0 : k - (markerTimes s.outputBuffer).length = 0 := by
          by_contra hne
          obtain ⟨j, hj⟩ := Nat.exists_eq_succ_of_ne_zero hne
          rw [hj] at hkt
          simp at hkt
        rw [hk0] at hkt
        simp only [List.getElem?_cons_zero, Option.some.injEq] at hkt
        have hkeq : k = (markerTimes s.outputBuffer).length := by omega
        rw [← hkt, hkeq]
        exact le_trans hn hf.2
    · simp only [List.length_append, List.length_singleton, Nat.cast_add, Nat.cast_one]
      have := le_trans hn hf.2
      linarith
  · simpa using And.intro hk hn

theorem foldl_eventStep_spaced (env : Env) (channel : Nat) (es : List Event)
    (s : LoopState)
    (h : MarkersSpaced s.builder.timestampMarkerStep (markerTimes s.outputBuffer)
      s.builder.nextTimestampMarker) :
    MarkersSpaced s.builder.timestampMarkerStep
      (markerTimes (es.foldl (eventStep env channel) s).outputBuffer)
      (es.foldl (eventStep env channel) s).builder.nextTimestampMarker := by
  induction es generalizing s with
  | nil => simpa using h
  | cons e es ih =>
    rw [List.foldl_cons]
    have h1 := eventStep_spaced env channel s e h
    rw [← eventStep_step env channel s e] at h1 ⊢
    exact ih _ h1

theorem foldl_eventStep_markers_length (env : Env) (channel : Nat) (es : List Event)
    (s : LoopState) :
    (markerTimes (es.foldl (eventStep env channel) s).outputBuffer).length ≤
      (markerTimes s.outputBuffer).length + es.length := by
  induction es generalizing s with
  | nil => simp
  | cons e es ih =>
    rw [List.foldl_cons]
    refine le_trans (ih _) ?_
    rw [(eventStep_markers env channel s e).1]
    split_ifs
    · simp only [List.length_append, List.length_cons, List.length_nil]
      omega
    · simp only [List.length_append, List.length_cons, List.length_nil]
      omega

/-! ## C6: time markers every 1000 ms -/

/-- C6 fails as stated: with the step set to 1000 ms, on a track whose
cumulative time is 1500, 2000 and 3000 ms after its three events, so that it
crosses 1000, 2000 and 3000 ms, two markers are emitted, at 1500 and at 3000,
and none for the crossing of 2000 ms. -/
theorem two_markers_for_three_crossings :
    markerTimes (runChannel (mkEnv true)
        (setTimeCommentsAfterEachMs (mkBuilder crossingTrack) 1000) 0).outputBuffer =
      [1500, 3000] ∧
    (runChannel (mkEnv true)
        (setTimeCommentsAfterEachMs (mkBuilder crossingTrack) 1000) 0).builder.processedTime =
      3000 := by
  constructor
  · simp [mkBuilder, crossingTrack, mkTrack, mkEvent, mkEnv, NOTE_ON, NOTE_OFF,
      setTimeCommentsAfterEachMs, runChannel, loopInit, eventStep, markerStep, buildNote,
      getBeepLine, getDelayLine, getCurrentTimeMarker, getScriptHeader, durationToMs,
      Note.ofEvent, markerTimes]
    norm_num
    rfl
  · rw [runChannel_processedTime]
    simp [mkBuilder, crossingTrack, mkTrack, mkEvent, setTimeCommentsAfterEachMs, eventsMs,
      durationToMs]
    norm_num

/-! ## C4: the accumulators at the start of a channel's run -/

/-- C4 at its failing input: a track with a NoteOn of 600 ms on channel 0 and one
on channel 1, step 1000 ms. The run for channel 0 starts from `processedTime = 0`
and `nextTimestampMarker = 1000`, but the run for channel 1 starts from what the
run for channel 0 left, `processedTime = 1200` and `nextTimestampMarker = 2200`:
the file of channel 1 gets its marker at 2400 ms where a run from 0 and 1000
puts it at 1200 ms. -/
theorem channel_1_starts_from_stale_accumulators :
    (builderAt (mkEnv true) (setTimeCommentsAfterEachMs (mkBuilder twoChannelTrack) 1000)
      "out" 0).processedTime = 0 ∧
    (builderAt (mkEnv true) (setTimeCommentsAfterEachMs (mkBuilder twoChannelTrack) 1000)
      "out" 0).nextTimestampMarker = 1000 ∧
    (builderAt (mkEnv true) (setTimeCommentsAfterEachMs (mkBuilder twoChannelTrack) 1000)
      "out" 1).processedTime = 1200 ∧
    (builderAt (mkEnv true) (setTimeCommentsAfterEachMs (mkBuilder twoChannelTrack) 1000)
      "out" 1).nextTimestampMarker = 2200 ∧
    markerTimes (runChannel (mkEnv true)
      (builderAt (mkEnv true) (setTimeCommentsAfterEachMs (mkBuilder twoChannelTrack) 1000)
        "out" 1) 1).outputBuffer = [2400] ∧
    markerTimes (runChannel (mkEnv true)
      (setTimeCommentsAfterEachMs (mkBuilder twoChannelTrack) 1000) 1).outputBuffer =
        [1200] ∧
    ((buildScript (mkEnv true) (setTimeCommentsAfterEachMs (mkBuilder twoChannelTrack) 1000)
        "out").calls.filterMap (fun c => c.2.written)).map
          (fun w => (w.1, markerTimes w.2)) =
      [("out_song_0_0.txt", [1200]), ("out_song_0_1.txt", [2400])] := by
  have hb1 : builderAt (mkEnv true)
      (setTimeCommentsAfterEachMs (mkBuilder twoChannelTrack) 1000) "out" 1 =
      (setTimeCommentsAfterEachMs (mkBuilder twoChannelTrack) 1000).withAcc 1200 2200 := by
    rw [builderAt_succ _ _ _ 0, builderAt_zero]
    simp [mkBuilder, twoChannelTrack, mkTrack, mkEvent, mkEnv, NOTE_ON, NOTE_OFF,
      setTimeCommentsAfterEachMs, runChannel, loopInit, eventStep, markerStep, buildNote,
      getBeepLine, getDelayLine, getCurrentTimeMarker, getScriptHeader, durationToMs,
      Note.ofEvent, Mikrotik.withAcc]
    norm_num
  have hm1 : markerTimes (runChannel (mkEnv true)
      ((setTimeCommentsAfterEachMs (mkBuilder twoChannelTrack) 1000).withAcc 1200 2200)
        1).outputBuffer = [2400] := by
    simp [mkBuilder, twoChannelTrack, mkTrack, mkEvent, mkEnv, NOTE_ON, NOTE_OFF,
      setTimeCommentsAfterEachMs, runChannel, loopInit, eventStep, markerStep, buildNote,
      getBeepLine, getDelayLine, getCurrentTimeMarker, getScriptHeader, durationToMs,
      Note.ofEvent, Mikrotik.withAcc, markerTimes]
    norm_num
    rfl
  have hm0 : markerTimes (runChannel (mkEnv true)
      (setTimeCommentsAfterEachMs (mkBuilder twoChannelTrack) 1000) 0).outputBuffer =
        [1200] := by
    simp [mkBuilder, twoChannelTrack, mkTrack, mkEvent, mkEnv, NOTE_ON, NOTE_OFF,
      setTimeCommentsAfterEachMs, runChannel, loopInit, eventStep, markerStep, buildNote,
      getBeepLine, getDelayLine, getCurrentTimeMarker, getScriptHeader, durationToMs,
      Note.ofEvent, markerTimes]
    norm_num
    rfl
  refine ⟨rfl, rfl, by rw [hb1]; rfl, by rw [hb1]; rfl, by rw [hb1]; exact hm1, ?_, ?_⟩
  rotate_left
  · have hne : (setTimeCommentsAfterEachMs (mkBuilder twoChannelTrack) 1000).track.events ≠
        [] := by
      simp [setTimeCommentsAfterEachMs, mkBuilder, twoChannelTrack, mkTrack]
    have hev : (setTimeCommentsAfterEachMs (mkBuilder twoChannelTrack) 1000).track.events =
        [mkEvent NOTE_ON 0 600 69, mkEvent NOTE_ON 1 600 69] := rfl
    have hopen : ∀ s, (mkEnv true).canOpen s = true := fun _ => rfl
    have hn0 : outFileName (setTimeCommentsAfterEachMs (mkBuilder twoChannelTrack) 1000)
        "out" 0 = "out_song_0_0.txt" := by decide
    have hn1 : outFileName (setTimeCommentsAfterEachMs (mkBuilder twoChannelTrack) 1000)
        "out" 1 = "out_song_0_1.txt" := by decide
    rw [buildScript_written _ _ _ hne, range16, hev]
    simp only [hopen, and_true]
    simp [List.filterMap_cons, mkEvent, isChannelNote, NOTE_ON, NOTE_OFF]
    rw [builderAt_zero, hb1, hm0, hm1, hn0, hn1]
    exact ⟨⟨rfl, rfl⟩, ⟨rfl, rfl⟩⟩
  · simp [mkBuilder, twoChannelTrack, mkTrack, mkEvent, mkEnv, NOTE_ON, NOTE_OFF,
      setTimeCommentsAfterEachMs, runChannel, loopInit, eventStep, markerStep, buildNote,
      getBeepLine, getDelayLine, getCurrentTimeMarker, getScriptHeader, durationToMs,
      Note.ofEvent, markerTimes]
    norm_num
    rfl

/-! ## C12: no time marker when the step is 0 -/

theorem markerTimes_eq_nil_iff (buffer : List Line) :
    markerTimes buffer = [] ↔ ∀ l ∈ buffer, l.isMarker = false := by
  induction buffer with
  | nil => simp [markerTimes]
  | cons l ls ih =>
    cases l <;> simp [markerTimes, Line.isMarker, List.filterMap_cons] at ih ⊢ <;> exact ih

theorem foldl_eventStep_markers_of_step_zero (env : Env) (channel : Nat)
    (es : List Event) (s : LoopState) (h : s.builder.timestampMarkerStep = 0) :
    markerTimes (es.foldl (eventStep env channel) s).outputBuffer =
      markerTimes s.outputBuffer := by
  induction es generalizing s with
  | nil => rfl
  | cons e es ih =>
    rw [List.foldl_cons, ih _ (by rw [eventStep_step]; exact h),
      (eventStep_markers env channel s e).1]
    simp [h]

theorem runChannel_markers_of_step_zero (env : Env) (m : Mikrotik) (channel : Nat)
    (h : m.timestampMarkerStep = 0) :
    markerTimes (runChannel env m channel).outputBuffer = [] := by
  unfold runChannel
  rw [foldl_eventStep_markers_of_step_zero env channel _ _ h]
  simp only [loopInit, markerTimes_append, getDelayLine_markerTimes]
  rfl

theorem builderAt_step (env : Env) (m : Mikrotik) (fileName : String) (n : Nat) :
    (builderAt env m fileName n).timestampMarkerStep = m.timestampMarkerStep := by
  rw [builderAt_eq]; rfl

/-- C12. After `setTimeCommentsAfterEachMs` with step 0, the buffer built for
any channel holds no time-marker line, in a run right after the call and in
every run that `buildScript` makes for the channels 0 to 15. -/
theorem no_marker_when_step_is_zero (env : Env) (m : Mikrotik) (fileName : String)
    (channel : Nat) :
    markerTimes
      (runChannel env (setTimeCommentsAfterEachMs m 0) channel).outputBuffer = [] ∧
    (∀ l ∈ (runChannel env (setTimeCommentsAfterEachMs m 0) channel).outputBuffer,
      l.isMarker = false) ∧
    (∀ l ∈ (runChannel env
        (builderAt env (setTimeCommentsAfterEachMs m 0) fileName channel)
          channel).outputBuffer,
      l.isMarker = false) := by
  have h1 := runChannel_markers_of_step_zero env (setTimeCommentsAfterEachMs m 0) channel rfl
  have h2 := runChannel_markers_of_step_zero env
    (builderAt env (setTimeCommentsAfterEachMs m 0) fileName channel) channel
    (by rw [builderAt_step]; rfl)
  exact ⟨h1, (markerTimes_eq_nil_iff _).mp h1, (markerTimes_eq_nil_iff _).mp h2⟩

/-! ## C13: the conversion of ticks to milliseconds -/

/-- C13. For a tick delay `d` (a natural number, so non-negative) and a positive
scale `s`, `durationToMs d s` is the product `d * s`, it is non-negative, and
it is monotonic in `d`. -/
theorem durationToMs_product_nonneg_monotone (d d1 d2 : Nat) (s : ℚ) (hs : 0 < s) :
    durationToMs d s = (d : ℚ) * s ∧
    0 ≤ durationToMs d s ∧
    (d1 ≤ d2 → durationToMs d1 s ≤ durationToMs d2 s) := by
  refine ⟨rfl, ?_, ?_⟩
  · unfold durationToMs
    exact mul_nonneg (Nat.cast_nonneg d) (le_of_lt hs)
  · intro h
    unfold durationToMs
    exact mul_le_mul_of_nonneg_right (Nat.cast_le.mpr h) (le_of_lt hs)

/-- C13 at a concrete input: 500 ticks at half a millisecond per tick. -/
theorem durationToMs_product_nonneg_monotone_witness :
    (0 : ℚ) < 1 / 2 ∧ durationToMs 500 (1 / 2) = 250 := by
  have h := durationToMs_product_nonneg_monotone 500 0 500 (1 / 2) (by norm_num)
  refine ⟨by norm_num, ?_⟩
  rw [h.1]
  norm_num

/-! ## C15: when a time marker is emitted -/

/-- C15. After an event has been processed, with `t` the value of
`processedTime` at that point: a time-marker line is appended to the buffer if
and only if the step is non-zero and `t` has reached `nextTimestampMarker`; the
marker is then the last line of the buffer, its text is `# Time marker: `
followed by `getTimeAsText t`, and `nextTimestampMarker` becomes `t + step`.
Otherwise no marker is added and `nextTimestampMarker` is unchanged. -/
theorem marker_emitted_iff_threshold_reached (env : Env) (channel : Nat) (s : LoopState)
    (e : Event) (showDouble : ℚ → String) :
    (markerTimes (eventStep env channel s e).outputBuffer =
      markerTimes s.outputBuffer ++
        if s.builder.timestampMarkerStep ≠ 0 ∧
            s.builder.nextTimestampMarker ≤ (eventStep env channel s e).builder.processedTime
        then [(eventStep env channel s e).builder.processedTime] else []) ∧
    ((eventStep env channel s e).builder.nextTimestampMarker =
      if s.builder.timestampMarkerStep ≠ 0 ∧
          s.builder.nextTimestampMarker ≤ (eventStep env channel s e).builder.processedTime
      then (eventStep env channel s e).builder.processedTime + s.builder.timestampMarkerStep
      else s.builder.nextTimestampMarker) ∧
    ((s.builder.timestampMarkerStep ≠ 0 ∧
        s.builder.nextTimestampMarker ≤ (eventStep env channel s e).builder.processedTime) →
      (eventStep env channel s e).outputBuffer.getLast? =
        some (Line.marker (eventStep env channel s e).builder.processedTime)) ∧
    (Line.marker (eventStep env channel s e).builder.processedTime).render showDouble =
      "# Time marker: " ++
        getTimeAsText (eventStep env channel s e).builder.processedTime ++ "\n" := by
  obtain ⟨h1, h2⟩ := eventStep_markers env channel s e
  rw [eventStep_processedTime]
  refine ⟨h1, h2, ?_, rfl⟩
  intro hf
  have hpt := eventStep_processedTime env channel s e
  unfold eventStep at hpt ⊢
  simp only [] at hpt ⊢
  rw [markerStep_builder] at hpt
  simp only [Mikrotik.withAcc] at hpt
  unfold markerStep
  split_ifs at hpt ⊢ <;> simp_all [getCurrentTimeMarker, buildNote_builder, Mikrotik.withAcc,
    getDelayLine, Note.ofEvent]

/-! ## C17: a beep line and the delay line after it -/

theorem buildNote_lines (env : Env) (m : Mikrotik) (note : Note) :
    (buildNote env m note).1 =
      if durationToMs note.delay m.track.pulsesPerSecond = 0 then []
      else if note.type = NoteType.NOTE_TYPE_ON then
        [Line.beep (env.getFrequencyHz note m.octaveShift m.noteShift m.fineTuning)
            (durationToMs note.delay m.track.pulsesPerSecond)
            (if m.commentsFlag then
              some (env.getSymbolicNote note m.octaveShift m.noteShift m.fineTuning)
             else none),
          Line.delay (durationToMs note.delay m.track.pulsesPerSecond), Line.blank]
      else [Line.delay (durationToMs note.delay m.track.pulsesPerSecond), Line.blank] := by
  unfold buildNote getBeepLine getDelayLine
  by_cases h : durationToMs note.delay m.track.pulsesPerSecond = 0
  · by_cases ht : note.type = NoteType.NOTE_TYPE_ON
    · simp [h, ht]
    · simp [h, ht]
  · by_cases ht : note.type = NoteType.NOTE_TYPE_ON
    · simp [h, ht]
    · simp [h, ht]

/-- C17. When the lines of `buildNote` hold a beep line, the note is a NoteOn
whose duration `d` is non-zero, the lines are exactly the beep line of length
`d`, the delay line of value `d` and an empty line, and `processedTime` has
grown by `d`. A NoteOff produces no beep line. -/
theorem beep_line_followed_by_equal_delay (env : Env) (m : Mikrotik) (note : Note) :
    ((∃ l ∈ (buildNote env m note).1, l.isBeep = true) →
      note.type = NoteType.NOTE_TYPE_ON ∧
      durationToMs note.delay m.track.pulsesPerSecond ≠ 0 ∧
      (buildNote env m note).1 =
        [Line.beep (env.getFrequencyHz note m.octaveShift m.noteShift m.fineTuning)
            (durationToMs note.delay m.track.pulsesPerSecond)
            (if m.commentsFlag then
              some (env.getSymbolicNote note m.octaveShift m.noteShift m.fineTuning)
             else none),
          Line.delay (durationToMs note.delay m.track.pulsesPerSecond), Line.blank] ∧
      (buildNote env m note).2.processedTime =
        m.processedTime + durationToMs note.delay m.track.pulsesPerSecond) ∧
    (note.type = NoteType.NOTE_TYPE_OFF →
      ∀ l ∈ (buildNote env m note).1, l.isBeep = false) := by
  rw [buildNote_lines, buildNote_builder]
  constructor
  · rintro ⟨l, hl, hb⟩
    by_cases h : durationToMs note.delay m.track.pulsesPerSecond = 0
    · simp [h] at hl
    · by_cases ht : note.type = NoteType.NOTE_TYPE_ON
      · refine ⟨ht, h, ?_, rfl⟩
        rw [if_neg h, if_pos ht]
      · simp only [h, ht, if_false, List.mem_cons, List.mem_singleton] at hl
        rcases hl with rfl | rfl | hl
        · simp [Line.isBeep] at hb
        · simp [Line.isBeep] at hb
        · simp at hl
  · intro hoff l hl
    have ht : ¬ note.type = NoteType.NOTE_TYPE_ON := by rw [hoff]; decide
    by_cases h : durationToMs note.delay m.track.pulsesPerSecond = 0
    · simp [h] at hl
    · simp only [h, ht, if_false, List.mem_cons, List.mem_singleton] at hl
      rcases hl with rfl | rfl | hl
      · rfl
      · rfl
      · simp at hl

/-- C17 at a concrete input: a NoteOn of pitch 69 and delay 500 at one
millisecond per tick gives a beep line of 440 Hz and 500 ms, the delay line of
500 ms and an empty line. -/
theorem beep_line_followed_by_equal_delay_witness :
    (buildNote (mkEnv true) (mkBuilder oneNoteTrack)
      { type := NoteType.NOTE_TYPE_ON, pitch := 69, delay := 500 }).1 =
      [Line.beep 440 500 none, Line.delay 500, Line.blank] ∧
    (buildNote (mkEnv true) (mkBuilder oneNoteTrack)
      { type := NoteType.NOTE_TYPE_ON, pitch := 69, delay := 500 }).2.processedTime =
      (mkBuilder oneNoteTrack).processedTime +
        durationToMs 500 (mkBuilder oneNoteTrack).track.pulsesPerSecond := by
  have hlines : (buildNote (mkEnv true) (mkBuilder oneNoteTrack)
      { type := NoteType.NOTE_TYPE_ON, pitch := 69, delay := 500 }).1 =
      [Line.beep 440 500 none, Line.delay 500, Line.blank] := by
    simp [buildNote, getBeepLine, getDelayLine, durationToMs, mkEnv, mkBuilder, oneNoteTrack,
      mkTrack]
  exact ⟨hlines,
    ((beep_line_followed_by_equal_delay (mkEnv true) (mkBuilder oneNoteTrack)
      { type := NoteType.NOTE_TYPE_ON, pitch := 69, delay := 500 }).1
      ⟨Line.beep 440 500 none, by rw [hlines]; simp, rfl⟩).2.2.2⟩

/-! ## The lines of the event loop -/

theorem eventLines_withAcc (env : Env) (m : Mikrotik) (channel : Nat) (e : Event)
    (a b : ℚ) :
    eventLines env (m.withAcc a b) channel e = eventLines env m channel e := by
  unfold eventLines
  rw [buildNote_lines, buildNote_lines]
  rfl

/-- The buffer after the loop body: the lines of the event, then the marker if
its threshold is reached. -/
theorem eventStep_buffer (env : Env) (channel : Nat) (s : LoopState) (e : Event) :
    (eventStep env channel s e).outputBuffer =
      s.outputBuffer ++ eventLines env s.builder channel e ++
        if s.builder.timestampMarkerStep ≠ 0 ∧
            s.builder.nextTimestampMarker ≤
              s.builder.processedTime +
                durationToMs e.delay s.builder.track.pulsesPerSecond then
          [Line.marker
            (s.builder.processedTime + durationToMs e.delay s.builder.track.pulsesPerSecond)]
        else [] := by
  unfold eventStep eventLines isChannelNote
  simp only []
  by_cases hn : (e.cmd.mainCmd = NOTE_ON ∨ e.cmd.mainCmd = NOTE_OFF) ∧ e.cmd.subCmd = channel
  · simp only [hn, and_self, if_true]
    unfold markerStep
    simp only [buildNote_builder, Mikrotik.withAcc, Note.ofEvent, getCurrentTimeMarker,
      ge_iff_le]
    by_cases h1 : s.builder.timestampMarkerStep = 0
    · simp [h1]
    · by_cases h2 : s.builder.nextTimestampMarker ≤
          s.builder.processedTime + durationToMs e.delay s.builder.track.pulsesPerSecond
      · simp [h1, h2]
      · simp [h1, h2]
  · simp only [hn, if_false]
    unfold markerStep
    simp only [getDelayLine, getCurrentTimeMarker, ge_iff_le]
    by_cases h1 : s.builder.timestampMarkerStep = 0
    · simp [h1]
    · by_cases h2 : s.builder.nextTimestampMarker ≤
          s.builder.processedTime + durationToMs e.delay s.builder.track.pulsesPerSecond
      · simp [h1, h2]
      · simp [h1, h2]

theorem eventLines_eventStep (env : Env) (channel c : Nat) (s : LoopState) (e e' : Event) :
    eventLines env (eventStep env channel s e).builder c e' =
      eventLines env s.builder c e' := by
  rw [eventStep_builder, eventLines_withAcc]

theorem foldl_eventStep_buffer_of_step_zero (env : Env) (channel : Nat) (es : List Event)
    (s : LoopState) (h : s.builder.timestampMarkerStep = 0) :
    (es.foldl (eventStep env channel) s).outputBuffer =
      s.outputBuffer ++ es.flatMap (eventLines env s.builder channel) := by
  induction es generalizing s with
  | nil => simp
  | cons e es ih =>
    rw [List.foldl_cons, ih _ (by rw [eventStep_step]; exact h), eventStep_buffer]
    have hfun : eventLines env (eventStep env channel s e).builder channel =
        eventLines env s.builder channel := by
      funext e'
      exact eventLines_eventStep env channel channel s e e'
    rw [hfun]
    simp [h, List.flatMap_cons]

/-- With the step at 0 the buffer of a channel is the header, the pre-delay
line and the lines of the events, none of which depends on the accumulators. -/
theorem runChannel_buffer_of_step_zero (env : Env) (m : Mikrotik) (channel : Nat)
    (h : m.timestampMarkerStep = 0) :
    (runChannel env m channel).outputBuffer =
      getScriptHeader m channel ++ (getDelayLine m m.track.preDelayMs).1 ++
        m.track.events.flatMap (eventLines env m channel) := by
  unfold runChannel
  rw [foldl_eventStep_buffer_of_step_zero env channel _ _ h]
  have hfun : eventLines env (loopInit m channel).builder channel =
      eventLines env m channel := by
    funext e'
    exact eventLines_withAcc env m channel e' _ _
  rw [hfun]
  rfl

/-! ## C18: with markers disabled the script does not depend on the accumulators -/

/-- C18. With the step at 0, the buffer built for a channel is the same for any
two values of `processedTime` and `nextTimestampMarker` at the start of the
run; in particular the run that `buildScript` makes for a channel, after the
channels before it, builds the buffer that a run on the original builder
builds. -/
theorem buffer_independent_of_accumulators (env : Env) (m : Mikrotik) (fileName : String)
    (channel : Nat) (hstep : m.timestampMarkerStep = 0) (a b a' b' : ℚ) :
    (runChannel env (m.withAcc a b) channel).outputBuffer =
      (runChannel env (m.withAcc a' b') channel).outputBuffer ∧
    (runChannel env (builderAt env m fileName channel) channel).outputBuffer =
      (runChannel env m channel).outputBuffer := by
  have key : ∀ x y : ℚ, (runChannel env (m.withAcc x y) channel).outputBuffer =
      (runChannel env m channel).outputBuffer := by
    intro x y
    rw [runChannel_buffer_of_step_zero env (m.withAcc x y) channel hstep,
      runChannel_buffer_of_step_zero env m channel hstep]
    have hfun : eventLines env (m.withAcc x y) channel = eventLines env m channel := by
      funext e'
      exact eventLines_withAcc env m channel e' x y
    rw [hfun]
    rfl
  constructor
  · rw [key, key]
  · rw [builderAt_eq, key]

/-- C18 at a concrete input: the scenario track, channel 0, accumulators 0, 0
and 500, 7. -/
theorem buffer_independent_of_accumulators_witness :
    (mkBuilder scenarioTrack).timestampMarkerStep = 0 ∧
    (runChannel (mkEnv true) ((mkBuilder scenarioTrack).withAcc 0 0) 0).outputBuffer =
      (runChannel (mkEnv true) ((mkBuilder scenarioTrack).withAcc 500 7) 0).outputBuffer :=
  ⟨rfl, (buffer_independent_of_accumulators (mkEnv true) (mkBuilder scenarioTrack) "out" 0
    rfl 0 0 500 7).1⟩

/-! ## C11: the grammar of the body -/

theorem isBody_nil : IsBody [] :=
  ⟨[], rfl, by simp⟩

theorem isBody_chunk (chunk : List Line) (h : IsChunk chunk) : IsBody chunk :=
  ⟨[chunk], by simp, by simpa using h⟩

theorem isBody_append (a b : List Line) (ha : IsBody a) (hb : IsBody b) :
    IsBody (a ++ b) := by
  obtain ⟨ca, rfl, hca⟩ := ha
  obtain ⟨cb, rfl, hcb⟩ := hb
  refine ⟨ca ++ cb, by simp, ?_⟩
  intro chunk hmem
  rcases List.mem_append.mp hmem with h | h
  · exact hca chunk h
  · exact hcb chunk h

theorem getDelayLine_isBody (m : Mikrotik) (d : ℚ) : IsBody (getDelayLine m d).1 := by
  unfold getDelayLine
  by_cases h : d = 0
  · simp [h, isBody_nil]
  · simp only [ne_eq, h, not_false_eq_true, if_true]
    exact isBody_chunk _ (Or.inl ⟨d, h, rfl⟩)

theorem eventLines_isBody (env : Env) (m : Mikrotik) (channel : Nat) (e : Event) :
    IsBody (eventLines env m channel e) := by
  unfold eventLines
  split_ifs
  · rw [buildNote_lines]
    by_cases h : durationToMs (Note.ofEvent e).delay m.track.pulsesPerSecond = 0
    · rw [if_pos h]
      exact isBody_nil
    · rw [if_neg h]
      by_cases ht : (Note.ofEvent e).type = NoteType.NOTE_TYPE_ON
      · rw [if_pos ht]
        exact isBody_chunk _ (Or.inr (Or.inl ⟨_, _, _, h, rfl⟩))
      · rw [if_neg ht]
        exact isBody_chunk _ (Or.inr (Or.inr (Or.inl ⟨_, h, rfl⟩)))
  · exact getDelayLine_isBody _ _

theorem foldl_eventStep_isBody (env : Env) (channel : Nat) (es : List Event)
    (s : LoopState) :
    ∃ body, (es.foldl (eventStep env channel) s).outputBuffer = s.outputBuffer ++ body ∧
      IsBody body := by
  induction es generalizing s with
  | nil => exact ⟨[], by simp, isBody_nil⟩
  | cons e es ih =>
    obtain ⟨body, hbody, hb⟩ := ih (eventStep env channel s e)
    rw [List.foldl_cons, hbody, eventStep_buffer]
    have hm : IsBody
        (if s.builder.timestampMarkerStep ≠ 0 ∧
            s.builder.nextTimestampMarker ≤
              s.builder.processedTime +
                durationToMs e.delay s.builder.track.pulsesPerSecond then
          [Line.marker
            (s.builder.processedTime + durationToMs e.delay s.builder.track.pulsesPerSecond)]
        else []) := by
      split_ifs
      · exact isBody_chunk _ (Or.inr (Or.inr (Or.inr ⟨_, rfl⟩)))
      · exact isBody_nil
    refine ⟨_ ++ _ ++ body, ?_,
      isBody_append _ _ (isBody_append _ _ (eventLines_isBody env s.builder channel e) hm) hb⟩
    simp only [List.append_assoc]

/-- C11 fails as stated: in the buffer of channel 0 of the scenario track the
header is followed by the delay line of 500 ms and by an empty line; the text of
the body is `:delay 500ms;` and two line ends. -/
theorem body_has_empty_line :
    (runChannel (mkEnv true) (mkBuilder scenarioTrack) 0).outputBuffer =
      getScriptHeader (mkBuilder scenarioTrack) 0 ++ [Line.delay 500, Line.blank] ∧
    Line.render (mkEnv true).showDouble Line.blank = "\n" ∧
    renderBuffer (mkEnv true).showDouble [Line.delay 500, Line.blank] =
      ":delay 500ms;\n\n" := by
  refine ⟨?_, rfl, by decide⟩
  simp [mkBuilder, scenarioTrack, mkTrack, mkEvent, mkEnv, NOTE_ON, NOTE_OFF, runChannel,
    loopInit, eventStep, markerStep, buildNote, getBeepLine, getDelayLine, durationToMs,
    Note.ofEvent]

/-! ## C19: consecutive markers are at least the step apart -/

theorem eventStep_apart (env : Env) (channel : Nat) (s : LoopState) (e : Event)
    (prev : List ℚ)
    (h : MarkersApart s.builder.timestampMarkerStep (prev ++ markerTimes s.outputBuffer)
      s.builder.nextTimestampMarker) :
    MarkersApart s.builder.timestampMarkerStep
      (prev ++ markerTimes (eventStep env channel s e).outputBuffer)
      (eventStep env channel s e).builder.nextTimestampMarker := by
  obtain ⟨hbuf, hnext⟩ := eventStep_markers env channel s e
  rw [hbuf, hnext]
  obtain ⟨hchain, hlast⟩ := h
  split_ifs with hf
  · rw [← List.append_assoc]
    constructor
    · refine List.Chain'.append hchain (List.chain'_singleton _) ?_
      intro x hx y hy
      simp only [List.head?_cons, Option.mem_def, Option.some.injEq] at hy
      rw [← hy]
      exact le_trans (hlast x hx) hf.2
    · intro t ht
      rw [List.getLast?_concat] at ht
      simp only [Option.mem_def, Option.some.injEq] at ht
      rw [← ht]
  · rw [List.append_nil]
    exact ⟨hchain, hlast⟩

theorem foldl_eventStep_apart (env : Env) (channel : Nat) (es : List Event)
    (s : LoopState) (prev : List ℚ)
    (h : MarkersApart s.builder.timestampMarkerStep (prev ++ markerTimes s.outputBuffer)
      s.builder.nextTimestampMarker) :
    MarkersApart s.builder.timestampMarkerStep
      (prev ++ markerTimes (es.foldl (eventStep env channel) s).outputBuffer)
      (es.foldl (eventStep env channel) s).builder.nextTimestampMarker := by
  induction es generalizing s with
  | nil => simpa using h
  | cons e es ih =>
    rw [List.foldl_cons]
    have h1 := eventStep_apart env channel s e prev h
    rw [← eventStep_step env channel s e] at h1 ⊢
    exact ih _ h1

theorem runChannel_apart (env : Env) (m : Mikrotik) (channel : Nat) (prev : List ℚ)
    (h : MarkersApart m.timestampMarkerStep prev m.nextTimestampMarker) :
    MarkersApart m.timestampMarkerStep
      (prev ++ markerTimes (runChannel env m channel).outputBuffer)
      (runChannel env m channel).builder.nextTimestampMarker := by
  have hinit : markerTimes (loopInit m channel).outputBuffer = [] := by
    simp only [loopInit, markerTimes_append, getDelayLine_markerTimes]
    rfl
  have := foldl_eventStep_apart env channel m.track.events (loopInit m channel) prev
    (by rw [hinit, List.append_nil]; exact h)
  exact this

theorem markersUpTo_succ (env : Env) (m : Mikrotik) (fileName : String) (n : Nat) :
    markersUpTo env m fileName (n + 1) =
      markersUpTo env m fileName n ++
        markerTimes (runChannel env (builderAt env m fileName n) n).outputBuffer := by
  simp [markersUpTo, List.range_succ, List.flatMap_append]

theorem markersUpTo_apart (env : Env) (m : Mikrotik) (fileName : String) (n : Nat) :
    MarkersApart m.timestampMarkerStep (markersUpTo env m fileName n)
      (builderAt env m fileName n).nextTimestampMarker := by
  induction n with
  | zero =>
    refine ⟨List.chain'_nil, ?_⟩
    intro t ht
    simp [markersUpTo] at ht
  | succ n ih =>
    rw [markersUpTo_succ, builderAt_succ]
    have := runChannel_apart env (builderAt env m fileName n) n (markersUpTo env m fileName n)
      (by rw [builderAt_step]; exact ih)
    rw [builderAt_step] at this
    exact this

/-- C19. For every step, the positive ones included: the loop body appends at
most one time marker per event, so a run has at most as many markers as the
track has events; the times shown by two consecutive markers of a run differ by
at least the step; and so do the times of consecutive markers over all the runs
that `buildScript` makes on the builder, for the channels 0 to 15 one after the
other. -/
theorem consecutive_markers_step_apart (env : Env) (m : Mikrotik) (fileName : String)
    (channel : Nat) :
    (∀ s e, (markerTimes (eventStep env channel s e).outputBuffer).length ≤
      (markerTimes s.outputBuffer).length + 1) ∧
    (markerTimes (runChannel env m channel).outputBuffer).length ≤ m.track.events.length ∧
    List.Chain' (fun a b => a + m.timestampMarkerStep ≤ b)
      (markerTimes (runChannel env m channel).outputBuffer) ∧
    List.Chain' (fun a b => a + m.timestampMarkerStep ≤ b)
      (markersUpTo env m fileName 16) := by
  refine ⟨?_, ?_, ?_, (markersUpTo_apart env m fileName 16).1⟩
  · intro s e
    rw [(eventStep_markers env channel s e).1]
    split_ifs <;> simp
  · have hinit : markerTimes (loopInit m channel).outputBuffer = [] := by
      simp only [loopInit, markerTimes_append, getDelayLine_markerTimes]
      rfl
    have := foldl_eventStep_markers_length env channel m.track.events (loopInit m channel)
    rw [hinit] at this
    simpa [runChannel] using this
  · have := runChannel_apart env m channel []
      ⟨List.chain'_nil, by intro t ht; simp at ht⟩
    simpa using this.1

/-! ## C16: the track length of the header -/

/-- C16 at its failing input: on the track with a NoteOn of 600 ms on channel 0
and one on channel 1, the header of channel 0 shows the track length
`00:00:00:600`, the total of `getTrackTimeLength`, which leaves out the note
event of channel 1, while the delay lines of the same buffer add up to 1200 ms,
which is also the growth of `processedTime`, shown as `00:00:01:200`. -/
theorem header_length_differs_from_script_time :
    trackTotalTime (mkBuilder twoChannelTrack) 0 = 600 ∧
    getTrackTimeLength (mkBuilder twoChannelTrack) 0 = "00:00:00:600 HH:MM:SS:MS" ∧
    (runChannel (mkEnv true) (mkBuilder twoChannelTrack) 0).outputBuffer.head? =
      some (Line.header 120 0 "1" "00:00:00:600 HH:MM:SS:MS" "song" "piano") ∧
    (delayValues (runChannel (mkEnv true) (mkBuilder twoChannelTrack) 0).outputBuffer).sum =
      1200 ∧
    (runChannel (mkEnv true) (mkBuilder twoChannelTrack) 0).builder.processedTime = 1200 ∧
    getTimeAsText 1200 = "00:00:01:200" := by
  have h600 : trackTotalTime (mkBuilder twoChannelTrack) 0 = 600 := by
    simp [trackTotalTime, trackTimeStep, mkBuilder, twoChannelTrack, mkTrack, mkEvent,
      NOTE_ON, NOTE_OFF, durationToMs]
  have hlen : getTrackTimeLength (mkBuilder twoChannelTrack) 0 =
      "00:00:00:600 HH:MM:SS:MS" := by
    unfold getTrackTimeLength
    rw [h600]
    decide
  have hcount : getNotesCount (mkBuilder twoChannelTrack) 0 = "1" := by
    decide
  refine ⟨h600, hlen, ?_, ?_, ?_, by decide⟩
  · have hhead : (runChannel (mkEnv true) (mkBuilder twoChannelTrack) 0).outputBuffer.head? =
        (getScriptHeader (mkBuilder twoChannelTrack) 0).head? := by
      obtain ⟨body, hbody, _⟩ := foldl_eventStep_isBody (mkEnv true) 0
        (mkBuilder twoChannelTrack).track.events (loopInit (mkBuilder twoChannelTrack) 0)
      unfold runChannel
      rw [hbody]
      simp [loopInit, getScriptHeader]
    rw [hhead]
    simp only [getScriptHeader, List.head?_cons, hlen, hcount]
    rfl
  · rw [runChannel_delaySum]
    simp [mkBuilder, twoChannelTrack, mkTrack, mkEvent, eventsMs, durationToMs]
    norm_num
  · rw [runChannel_processedTime]
    simp [mkBuilder, twoChannelTrack, mkTrack, mkEvent, eventsMs, durationToMs]
    norm_num

/-! ## The accumulator and the markers along a run -/

theorem foldl_eventStep_markers_eq (env : Env) (channel : Nat) (es : List Event)
    (s : LoopState) :
    markerTimes (es.foldl (eventStep env channel) s).outputBuffer =
      markerTimes s.outputBuffer ++
        markersFor s.builder.timestampMarkerStep s.builder.nextTimestampMarker
          (cumulativeTimes s.builder.processedTime
            (es.map (fun e => durationToMs e.delay s.builder.track.pulsesPerSecond))) := by
  induction es generalizing s with
  | nil => simp [cumulativeTimes, markersFor]
  | cons e es ih =>
    obtain ⟨hbuf, hnext⟩ := eventStep_markers env channel s e
    rw [List.foldl_cons, ih, hbuf, hnext, eventStep_processedTime, eventStep_track,
      eventStep_step, List.map_cons]
    simp only [cumulativeTimes, markersFor]
    split_ifs <;> simp

/-- The markers of a run, by the rule of the marker block along the values of
`processedTime` after the events. -/
theorem runChannel_markers_eq (env : Env) (m : Mikrotik) (channel : Nat) :
    markerTimes (runChannel env m channel).outputBuffer =
      markersFor m.timestampMarkerStep m.nextTimestampMarker
        (cumulativeTimes (m.processedTime + m.track.preDelayMs) (eventDurations m.track)) := by
  have hinit : markerTimes (loopInit m channel).outputBuffer = [] := by
    simp only [loopInit, markerTimes_append, getDelayLine_markerTimes]
    rfl
  unfold runChannel
  rw [foldl_eventStep_markers_eq, hinit, List.nil_append]
  rfl

theorem markersFor_sublist (step : ℚ) (ts : List ℚ) (next : ℚ) :
    List.Sublist (markersFor step next ts) ts := by
  induction ts generalizing next with
  | nil => exact List.Sublist.slnil
  | cons t ts ih =>
    simp only [markersFor]
    split_ifs
    · exact List.Sublist.cons₂ t (ih _)
    · exact List.Sublist.cons t (ih _)

theorem markersFor_head (step : ℚ) (hstep : step ≠ 0) (ts : List ℚ) (next : ℚ) :
    (markersFor step next ts).head? = ts.find? (fun t => decide (next ≤ t)) := by
  induction ts with
  | nil => rfl
  | cons t ts ih =>
    simp only [markersFor, List.find?_cons]
    by_cases h : next ≤ t
    · simp [hstep, h]
    · simp [h, ih]

/-! ## C5: every channel's script spans the same time -/

/-- C6, amended. With the step set to 1000 ms on a builder whose `processedTime`
is 0, the run for a channel emits its markers by this rule, along the cumulative
times that `processedTime` takes after the events (the pre-delay, then each
duration added in turn): the threshold starts at 1000 ms; after an event a
marker showing the cumulative time is emitted exactly when that time has
reached the threshold, and the threshold becomes that time plus 1000 ms. So at
most one marker is emitted per event, each showing the cumulative time at its
event; the first marker comes at the first event whose cumulative time has
reached 1000 ms; the `k`-th marker, counting from 1, shows at least `k * 1000`
ms, never less than its threshold; and consecutive markers are at least 1000 ms
apart: a crossing of a multiple of 1000 ms that falls in one event with an
earlier crossing, or less than 1000 ms after the last marker, gets no marker of
its own. -/
theorem markers_every_1000ms (env : Env) (m : Mikrotik) (channel : Nat)
    (h0 : m.processedTime = 0) :
    markerTimes (runChannel env (setTimeCommentsAfterEachMs m 1000) channel).outputBuffer =
      markersFor 1000 1000 (cumulativeTimes m.track.preDelayMs (eventDurations m.track)) ∧
    List.Sublist
      (markerTimes (runChannel env (setTimeCommentsAfterEachMs m 1000) channel).outputBuffer)
      (cumulativeTimes m.track.preDelayMs (eventDurations m.track)) ∧
    (∀ s e, (markerTimes (eventStep env channel s e).outputBuffer).length ≤
      (markerTimes s.outputBuffer).length + 1) ∧
    (markerTimes
        (runChannel env (setTimeCommentsAfterEachMs m 1000) channel).outputBuffer).head? =
      (cumulativeTimes m.track.preDelayMs (eventDurations m.track)).find?
        (fun t => decide (1000 ≤ t)) ∧
    (∀ (k : Nat) (t : ℚ),
      (markerTimes
        (runChannel env (setTimeCommentsAfterEachMs m 1000) channel).outputBuffer)[k]? =
          some t →
      ((k : ℚ) + 1) * 1000 ≤ t) ∧
    List.Chain' (fun a b => a + 1000 ≤ b)
      (markerTimes
        (runChannel env (setTimeCommentsAfterEachMs m 1000) channel).outputBuffer) := by
  have hrule : markerTimes
      (runChannel env (setTimeCommentsAfterEachMs m 1000) channel).outputBuffer =
      markersFor 1000 1000
        (cumulativeTimes m.track.preDelayMs (eventDurations m.track)) := by
    rw [runChannel_markers_eq]
    have hstart : (setTimeCommentsAfterEachMs m 1000).processedTime +
        (setTimeCommentsAfterEachMs m 1000).track.preDelayMs = m.track.preDelayMs := by
      simp [setTimeCommentsAfterEachMs, h0]
    rw [hstart]
    rfl
  have hinit : markerTimes
      (loopInit (setTimeCommentsAfterEachMs m 1000) channel).outputBuffer = [] := by
    simp only [loopInit, markerTimes_append, getDelayLine_markerTimes]
    rfl
  refine ⟨hrule, ?_, ?_, ?_, ?_, ?_⟩
  · rw [hrule]
    exact markersFor_sublist _ _ _
  · intro s e
    rw [(eventStep_markers env channel s e).1]
    split_ifs <;> simp
  · rw [hrule]
    exact markersFor_head 1000 (by norm_num) _ _
  · have := foldl_eventStep_spaced env channel
      (setTimeCommentsAfterEachMs m 1000).track.events
      (loopInit (setTimeCommentsAfterEachMs m 1000) channel)
      (by
        rw [hinit]
        constructor
        · intro k t hkt
          simp at hkt
        · change ((([] : List ℚ).length : ℚ) + 1) * 1000 ≤ 1000
          simp)
    exact this.1
  · have := runChannel_apart env (setTimeCommentsAfterEachMs m 1000) channel []
      ⟨List.chain'_nil, by intro t ht; simp at ht⟩
    simpa using this.1

/-- C6, amended, at a concrete input: on the track whose cumulative times are
1500, 2000 and 3000 ms the rule gives the markers 1500 and 3000. -/
theorem markers_every_1000ms_witness :
    (mkBuilder crossingTrack).processedTime = 0 ∧
    markerTimes (runChannel (mkEnv true)
      (setTimeCommentsAfterEachMs (mkBuilder crossingTrack) 1000) 0).outputBuffer =
      markersFor 1000 1000 (cumulativeTimes 0 [1500, 500, 1000]) ∧
    markersFor 1000 1000 (cumulativeTimes 0 [1500, 500, 1000]) = [1500, 3000] := by
  have h := (markers_every_1000ms (mkEnv true) (mkBuilder crossingTrack) 0 rfl).1
  have hd : eventDurations (mkBuilder crossingTrack).track = [1500, 500, 1000] := by
    simp [eventDurations, mkBuilder, crossingTrack, mkTrack, mkEvent, durationToMs]
  have hp : (mkBuilder crossingTrack).track.preDelayMs = 0 := rfl
  rw [hd, hp] at h
  refine ⟨rfl, h, ?_⟩
  simp [cumulativeTimes, markersFor]
  norm_num

/-! ## C11, amended: the body of the buffer, event by event -/

theorem scriptBody_withAcc (env : Env) (m : Mikrotik) (channel : Nat) (a b : ℚ)
    (es : List Event) (t next : ℚ) :
    scriptBody env (m.withAcc a b) channel t next es = scriptBody env m channel t next es := by
  induction es generalizing t next with
  | nil => rfl
  | cons e es ih =>
    simp only [scriptBody, eventLines_withAcc, ih]
    rfl

theorem foldl_eventStep_buffer (env : Env) (channel : Nat) (es : List Event)
    (s : LoopState) :
    (es.foldl (eventStep env channel) s).outputBuffer =
      s.outputBuffer ++
        scriptBody env s.builder channel s.builder.processedTime
          s.builder.nextTimestampMarker es := by
  induction es generalizing s with
  | nil => simp [scriptBody]
  | cons e es ih =>
    obtain ⟨_, hnext⟩ := eventStep_markers env channel s e
    have hb : scriptBody env (eventStep env channel s e).builder channel =
        scriptBody env s.builder channel := by
      funext t next es'
      rw [eventStep_builder, scriptBody_withAcc]
    rw [List.foldl_cons, ih, eventStep_buffer, hb, hnext, eventStep_processedTime]
    simp only [scriptBody]
    split_ifs <;> simp

/-- The buffer of a run: the header, the pre-delay line, and the body event by
event. -/
theorem runChannel_buffer (env : Env) (m : Mikrotik) (channel : Nat) :
    (runChannel env m channel).outputBuffer =
      getScriptHeader m channel ++
        (if m.track.preDelayMs = 0 then [] else [Line.delay m.track.preDelayMs]) ++
        scriptBody env m channel (m.processedTime + m.track.preDelayMs)
          m.nextTimestampMarker m.track.events := by
  unfold runChannel
  rw [foldl_eventStep_buffer]
  have hb : scriptBody env (loopInit m channel).builder channel =
      scriptBody env m channel := by
    funext t next es'
    exact scriptBody_withAcc env m channel _ _ es' t next
  rw [hb]
  simp [loopInit, getDelayLine]

/-- C11, amended. The buffer of a channel is the header block, the pre-delay
line when the pre-delay is not 0, and then for each event of the track in turn
the lines of the event followed by a time-marker comment when its threshold is
reached. The lines of a NoteOn or NoteOff event of the channel are: nothing
when its duration is 0; for a NoteOn a beep line, the delay line of the same
value and an empty line; for a NoteOff the delay line and an empty line. The
lines of any other event are its delay line, or nothing when its duration is
0. So an empty line does occur in the body, and only directly after the delay
line of a note of the channel. The texts of the lines are `:delay N ms;`,
`:beep frequency=N length=N ms;` with an optional ` # NOTE`, the bare line
end, and `# Time marker: HH:MM:SS:mmm`. -/
theorem body_is_sequence_of_chunks (env : Env) (m : Mikrotik) (channel : Nat) :
    ((runChannel env m channel).outputBuffer =
      getScriptHeader m channel ++
        (if m.track.preDelayMs = 0 then [] else [Line.delay m.track.preDelayMs]) ++
        scriptBody env m channel (m.processedTime + m.track.preDelayMs)
          m.nextTimestampMarker m.track.events) ∧
    (∀ e, isChannelNote channel e →
      eventLines env m channel e =
        if durationToMs e.delay m.track.pulsesPerSecond = 0 then []
        else if e.cmd.mainCmd = NOTE_ON then
          [Line.beep
              (env.getFrequencyHz (Note.ofEvent e) m.octaveShift m.noteShift m.fineTuning)
              (durationToMs e.delay m.track.pulsesPerSecond)
              (if m.commentsFlag then
                some (env.getSymbolicNote (Note.ofEvent e) m.octaveShift m.noteShift
                  m.fineTuning)
               else none),
            Line.delay (durationToMs e.delay m.track.pulsesPerSecond), Line.blank]
        else [Line.delay (durationToMs e.delay m.track.pulsesPerSecond), Line.blank]) ∧
    (∀ e, ¬ isChannelNote channel e →
      eventLines env m channel e =
        if durationToMs e.delay m.track.pulsesPerSecond = 0 then []
        else [Line.delay (durationToMs e.delay m.track.pulsesPerSecond)]) ∧
    (∃ body, (runChannel env m channel).outputBuffer = getScriptHeader m channel ++ body ∧
      IsBody body) ∧
    (∀ d, (Line.delay d).render env.showDouble = ":delay " ++ env.showDouble d ++ "ms;\n") ∧
    (∀ f d, (Line.beep f d none).render env.showDouble =
      ":beep frequency=" ++ env.showDouble f ++ " length=" ++ env.showDouble d ++ "ms;" ++
        "" ++ "\n") ∧
    (∀ f d note, (Line.beep f d (some note)).render env.showDouble =
      ":beep frequency=" ++ env.showDouble f ++ " length=" ++ env.showDouble d ++ "ms;" ++
        (" # " ++ note) ++ "\n") ∧
    Line.blank.render env.showDouble = "\n" ∧
    (∀ t, (Line.marker t).render env.showDouble =
      "# Time marker: " ++ getTimeAsText t ++ "\n") := by
  refine ⟨runChannel_buffer env m channel, ?_, ?_, ?_, fun _ => rfl, fun _ _ => rfl,
    fun _ _ _ => rfl, rfl, fun _ => rfl⟩
  · intro e he
    unfold eventLines
    rw [if_pos he, buildNote_lines]
    by_cases hon : e.cmd.mainCmd = NOTE_ON
    · simp [Note.ofEvent, hon]
    · simp [Note.ofEvent, hon]
  · intro e he
    unfold eventLines
    rw [if_neg he]
    unfold getDelayLine
    by_cases hd : durationToMs e.delay m.track.pulsesPerSecond = 0
    · simp [hd]
    · simp [hd]
  · obtain ⟨body, hbody, hb⟩ := foldl_eventStep_isBody env channel m.track.events
      (loopInit m channel)
    refine ⟨(getDelayLine m m.track.preDelayMs).1 ++ body, ?_, ?_⟩
    · unfold runChannel
      rw [hbody]
      simp [loopInit]
    · exact isBody_append _ _ (getDelayLine_isBody _ _) hb

/-! ## C14: the frequency of a beep line -/

/-- The environment of the concrete evaluations agrees with the spec's
`Note::getFrequencyHz` where it is used: a voiced note of pitch 69 at no shift
and no tuning has 440 Hz, and the note of pitch 0 is an unvoiced one, at 0 Hz. -/
theorem mkEnv_followsSpec (opens : Bool) (track : MidiTrack) (type : NoteType)
    (delay : Nat) :
    FollowsSpec (mkEnv opens) true { type := type, pitch := 69, delay := delay }
      (mkBuilder track) ∧
    FollowsSpec (mkEnv opens) false { type := type, pitch := 0, delay := delay }
      (mkBuilder track) := by
  constructor
  · unfold FollowsSpec
    have h : frequencyExponent 69 0 0 0 = 0 := by norm_num [frequencyExponent]
    simp only [mkBuilder, specFrequencyHz, if_true, h]
    norm_num [mkEnv]
  · unfold FollowsSpec
    simp [mkBuilder, specFrequencyHz, mkEnv]

end MidiToMikrotik
